import Mathlib

/-!
Verification development for the WhatsApp-Calendar-Bot repository.

The Python source is shallowly embedded:
* strings are `List Char` (`Str`), converted from Lean `String` literals;
* the `re` regular-expression calls are embedded through a small
  backtracking matcher (`mrun`) over a regex AST (`RE`) that mirrors the
  exact patterns appearing in the source (all relevant calls use
  `re.IGNORECASE`, so literals match case-insensitively);
* timezone-aware datetimes are a day number plus clock fields; external
  collaborators (dateparser, spaCy entities, the current instant) are an
  explicit `Oracle` argument;
* fallible code (Python exceptions) runs in `Except PyErr`.
-/

set_option maxRecDepth 10000

namespace WCB

abbrev Str := List Char

def ofStr (s : String) : Str := s.data

def toStr (l : Str) : String := ⟨l⟩

/-- ASCII lowercasing, as applied by Python `str.lower()` on the ASCII
inputs this development evaluates (the source's Hebrew letters have no
case). -/
def lowerChar (c : Char) : Char :=
  if 65 ≤ c.toNat ∧ c.toNat ≤ 90 then Char.ofNat (c.toNat + 32) else c

def pyLower (s : Str) : Str := s.map lowerChar

def isSpaceChar (c : Char) : Bool :=
  c = ' ' ∨ c = '\t' ∨ c = '\n' ∨ c = '\r' ∨ c = '\x0b' ∨ c = '\x0c'

def notSpaceChar (c : Char) : Bool := ! isSpaceChar c

/-- The worker of `pySplit`; the fuel only bounds the number of
word/space steps (each consumes at least one character, so
`s.length + 1` always suffices) and exhaustion returns `[]`. -/
def pySplitGo : Nat → Str → List Str
  | 0, _ => []
  | fuel + 1, s =>
    match s with
    | [] => []
    | c :: rest =>
      if isSpaceChar c then pySplitGo fuel rest
      else
        ((c :: rest).takeWhile notSpaceChar) ::
          pySplitGo fuel ((c :: rest).dropWhile notSpaceChar)

/-- Python `str.split()` with no argument: split on whitespace runs,
dropping empty pieces. -/
def pySplit (s : Str) : List Str := pySplitGo (s.length + 1) s

/-- `' '.join(xs)` -/
def joinSpace : List Str → Str
  | [] => []
  | [w] => w
  | w :: ws => w ++ ' ' :: joinSpace ws

/-- `' '.join(s.split())` — collapse internal whitespace. -/
def collapseWs (s : Str) : Str := joinSpace (pySplit s)

/-- Python `str.strip()` (whitespace at both ends). -/
def pyStrip (s : Str) : Str :=
  (s.dropWhile isSpaceChar).reverse.dropWhile isSpaceChar |>.reverse

/-- Substring containment, Python `needle in haystack`. -/
def containsSub : Str → Str → Bool
  | [], needle => needle.isEmpty
  | c :: rest, needle => needle.isPrefixOf (c :: rest) || containsSub rest needle

/-- The worker of `pyReplace`; each step consumes at least one
character, so `s.length + 1` fuel always suffices, and exhaustion
returns the input unchanged. -/
def pyReplaceGo : Nat → Str → Str → Str → Str
  | 0, s, _, _ => s
  | fuel + 1, s, old, new =>
    match s with
    | [] => []
    | c :: rest =>
      if old ≠ [] ∧ old.isPrefixOf (c :: rest) then
        new ++ pyReplaceGo fuel ((c :: rest).drop old.length) old new
      else
        c :: pyReplaceGo fuel rest old new

/-- Python `str.replace(old, new)` for non-empty `old`: left-to-right,
non-overlapping. -/
def pyReplace (s old new : Str) : Str := pyReplaceGo (s.length + 1) s old new

/-- Python `str.startswith`. -/
def pyStartsWith (s pre : Str) : Bool := pre.isPrefixOf s

/-- Python `str.title()`: capitalize the first letter of every maximal
alphabetic run, lowercase the rest of the run. -/
def pyTitleGo : Str → Bool → Str
  | [], _ => []
  | c :: rest, prevAlpha =>
    let alpha := c.isAlpha
    let c' := if alpha then (if prevAlpha then lowerChar c else
        (if 'a' ≤ c ∧ c ≤ 'z' then Char.ofNat (c.toNat - 32) else c)) else c
    c' :: pyTitleGo rest alpha

def pyTitle (s : Str) : Str := pyTitleGo s false

def isDigitChar (c : Char) : Bool := '0' ≤ c ∧ c ≤ '9'

/-- `int()` on a digits-only capture. -/
def digitsToNat (s : Str) : Nat :=
  s.foldl (fun a c => a * 10 + (c.toNat - '0'.toNat)) 0

/-! ## Regex AST and backtracking matcher

`RE` covers exactly the constructs used by the source's patterns.
`rep lo hi lazy r` is `r{lo,hi}` (`hi = none` for unbounded), greedy
unless `lazy`. `grp i r` captures into slot `i` (1-based as in `re`).
`nla r` is the negative lookahead `(?!r)`. `eos` is `$`. Literals match
case-insensitively (every relevant source call passes `re.IGNORECASE`;
the remaining ones only involve caseless characters). -/

inductive RE where
  | eps
  | lit (c : Char)
  | digit
  | wsp
  | notCS
  | anyc
  | alnum
  | alnumWs
  | notWsp
  | lowaz
  | cat (a b : RE)
  | alt (a b : RE)
  | rep (lo : Nat) (hi : Option Nat) (lazy : Bool) (r : RE)
  | grp (i : Nat) (r : RE)
  | nla (r : RE)
  | eos
deriving Repr

def lits (s : String) : RE :=
  (s.data.map RE.lit).foldr RE.cat RE.eps

def alts : List RE → RE
  | [] => RE.eps
  | [r] => r
  | r :: rs => RE.alt r (alts rs)

abbrev Groups := List (Nat × Str)

def setGroup (i : Nat) (v : Str) (g : Groups) : Groups := (i, v) :: g

def getGroup (g : Groups) (i : Nat) : Option Str :=
  (g.find? (fun p => p.1 = i)).map (·.2)

/-- Backtracking matcher in continuation-passing style; the continuation
receives the remaining input and the captures. Fuel bounds the recursion
depth; every use in this file supplies enough fuel for its input (a
failed match and exhausted fuel both yield `none`). -/
def mrun : Nat → RE → Str → Groups → (Str → Groups → Option Groups) → Option Groups
  | 0, _, _, _, _ => none
  | _ + 1, .eps, s, g, k => k s g
  | _ + 1, .lit c, s, g, k =>
    match s with
    | [] => none
    | x :: rest => if lowerChar x = lowerChar c then k rest g else none
  | _ + 1, .digit, s, g, k =>
    match s with
    | [] => none
    | x :: rest => if isDigitChar x then k rest g else none
  | _ + 1, .wsp, s, g, k =>
    match s with
    | [] => none
    | x :: rest => if isSpaceChar x then k rest g else none
  | _ + 1, .notCS, s, g, k =>
    match s with
    | [] => none
    | x :: rest => if ¬ (x = ',' ∨ isSpaceChar x) then k rest g else none
  | _ + 1, .anyc, s, g, k =>
    match s with
    | [] => none
    | x :: rest => if x ≠ '\n' then k rest g else none
  | _ + 1, .alnum, s, g, k =>
    match s with
    | [] => none
    | x :: rest =>
      if ('A' ≤ x ∧ x ≤ 'Z') ∨ ('a' ≤ x ∧ x ≤ 'z') ∨ isDigitChar x then k rest g else none
  | _ + 1, .alnumWs, s, g, k =>
    match s with
    | [] => none
    | x :: rest =>
      if ('A' ≤ x ∧ x ≤ 'Z') ∨ ('a' ≤ x ∧ x ≤ 'z') ∨ isDigitChar x ∨ isSpaceChar x then
        k rest g
      else none
  | _ + 1, .notWsp, s, g, k =>
    match s with
    | [] => none
    | x :: rest => if ¬ isSpaceChar x then k rest g else none
  | _ + 1, .lowaz, s, g, k =>
    match s with
    | [] => none
    | x :: rest => if 'a' ≤ x ∧ x ≤ 'z' then k rest g else none
  | fuel + 1, .cat a b, s, g, k =>
    mrun fuel a s g (fun s' g' => mrun fuel b s' g' k)
  | fuel + 1, .alt a b, s, g, k =>
    match mrun fuel a s g k with
    | some r => some r
    | none => mrun fuel b s g k
  | fuel + 1, .rep lo hi lazy r, s, g, k =>
    match lo with
    | m + 1 =>
      mrun fuel r s g (fun s' g' =>
        mrun fuel (.rep m (hi.map (· - 1)) lazy r) s' g' k)
    | 0 =>
      match hi with
      | some 0 => k s g
      | _ =>
        let once : Option Groups :=
          mrun fuel r s g (fun s' g' =>
            if s'.length = s.length then k s' g'
            else mrun fuel (.rep 0 (hi.map (· - 1)) lazy r) s' g' k)
        if lazy then
          match k s g with
          | some res => some res
          | none => once
        else
          match once with
          | some res => some res
          | none => k s g
  | fuel + 1, .grp i r, s, g, k =>
    mrun fuel r s g (fun s' g' =>
      k s' (setGroup i (s.take (s.length - s'.length)) g'))
  | fuel + 1, .nla r, s, g, k =>
    match mrun fuel r s g (fun _ g' => some g') with
    | some _ => none
    | none => k s g
  | _ + 1, .eos, s, g, k =>
    match s with
    | [] => k s g
    | _ :: _ => none

/-- One match attempt anchored at the start of `s`; returns the captures
and the length of the overall match. -/
def mtry (fuel : Nat) (r : RE) (s : Str) : Option (Groups × Nat) :=
  match mrun fuel r s [] (fun s' g => some (setGroup 0 (s.take (s.length - s'.length)) g)) with
  | some g =>
    match getGroup g 0 with
    | some m => some (g, m.length)
    | none => none
  | none => none

def fuelFor (s : Str) : Nat := 400 + 40 * s.length

/-- `re.search`: leftmost match. Returns the captures, the start index
and the length of the match. -/
def research (r : RE) (s : Str) : Option (Groups × Nat × Nat) :=
  let fuel := fuelFor s
  let rec go (i : Nat) (t : Str) : Option (Groups × Nat × Nat) :=
    match mtry fuel r t with
    | some (g, len) => some (g, i, len)
    | none =>
      match t with
      | [] => none
      | _ :: rest => go (i + 1) rest
  go 0 s

def researchGroups (r : RE) (s : Str) : Option Groups :=
  (research r s).map (·.1)

def reTest (r : RE) (s : Str) : Bool := (research r s).isSome

/-- `re.match`: anchored at the start. -/
def rematch (r : RE) (s : Str) : Bool := (mtry (fuelFor s) r s).isSome

/-- `re.findall` for a single-group pattern: the list of group-1 captures
of successive non-overlapping matches. -/
def refindall (r : RE) (s : Str) : List Str :=
  let rec go (t : Str) (fuel : Nat) : List Str :=
    match fuel with
    | 0 => []
    | fuel + 1 =>
      match research r t with
      | none => []
      | some (g, i, len) =>
        let cap := (getGroup g 1).getD []
        let consumed := i + max len 1
        cap :: go (t.drop consumed) fuel
  go s (s.length + 1)

/-! Pattern building helpers. -/

/-- `(?:a)?` greedy -/
def ropt (r : RE) : RE := .rep 0 (some 1) false r

/-- `a*?` lazy -/
def rstarL (r : RE) : RE := .rep 0 none true r

/-- `a+` greedy -/
def rplus (r : RE) : RE := .rep 1 none false r

/-- `a+?` lazy -/
def rplusL (r : RE) : RE := .rep 1 none true r

def rcat : List RE → RE
  | [] => .eps
  | [r] => r
  | r :: rs => .cat r (rcat rs)

/-- `\d{1,2}` -/
def d12 : RE := .rep 1 (some 2) false .digit

/-- `\d{2}` -/
def d2 : RE := .rep 2 (some 2) false .digit

/-- `\d+` -/
def dplus : RE := rplus .digit

/-- `\s+` -/
def wplus : RE := rplus .wsp

/-- `\s*` -/
def wstar : RE := .rep 0 none false .wsp

/-- `.+?` lazy -/
def dotplusL : RE := rplusL .anyc

/-! ## Datetimes, durations, Python errors

A timezone-aware datetime is a day number (days since 1970-01-01 in the
user's timezone) plus clock fields; microseconds are not modelled (every
datetime the claims inspect has them zeroed by `.replace`).
`replaceHM` embeds `dt.replace(hour=h, minute=m, second=0, microsecond=0)`
including CPython's field validation (`ValueError` outside 0..23 / 0..59).
A `timedelta` built by the source is a whole number of minutes. -/

structure DateTime where
  day : Int
  hour : Nat
  minute : Nat
  second : Nat
deriving Repr, DecidableEq

def DateTime.toSec (d : DateTime) : Int :=
  d.day * 86400 + d.hour * 3600 + d.minute * 60 + d.second

inductive PyErr where
  | valueError
  | nameError
  | attributeError
deriving Repr, DecidableEq

def DateTime.replaceHM (d : DateTime) (h m : Nat) : Except PyErr DateTime :=
  if h ≤ 23 ∧ m ≤ 59 then
    .ok { d with hour := h, minute := m, second := 0 }
  else
    .error .valueError

/-- `dt + timedelta(minutes=k)` -/
def DateTime.addMinutes (d : DateTime) (k : Nat) : DateTime :=
  let tot := d.hour * 60 + d.minute + k
  { d with day := d.day + tot / 1440, hour := tot % 1440 / 60, minute := tot % 60 }

/-! ## External collaborators

`dateparse` stands for `dateparser.parse(s, settings=future/tz-aware)`,
`now` for `datetime.now(pytz.timezone(user_timezone))`, and `ents` for
the spaCy entities of the message being parsed.  They are inputs, not
code of this repository. -/

structure Ent where
  text : Str
  label : Str
deriving Repr, DecidableEq

structure Oracle where
  dateparse : Str → Option DateTime
  now : DateTime
  ents : List Ent

/-! ## nlp_service.py -/

/-- `self.hebrew_days` (dict iteration follows insertion order). -/
def hebrew_days : List (Str × Str) :=
  [ (ofStr "היום", ofStr "today"),
    (ofStr "מחר", ofStr "tomorrow"),
    (ofStr "מחרתיים", ofStr "day after tomorrow"),
    (ofStr "ראשון", ofStr "sunday"),
    (ofStr "שני", ofStr "monday"),
    (ofStr "שלישי", ofStr "tuesday"),
    (ofStr "רביעי", ofStr "wednesday"),
    (ofStr "חמישי", ofStr "thursday"),
    (ofStr "שישי", ofStr "friday"),
    (ofStr "שבת", ofStr "saturday"),
    (ofStr "יום ראשון", ofStr "sunday"),
    (ofStr "יום שני", ofStr "monday"),
    (ofStr "יום שלישי", ofStr "tuesday"),
    (ofStr "יום רביעי", ofStr "wednesday"),
    (ofStr "יום חמישי", ofStr "thursday"),
    (ofStr "יום שישי", ofStr "friday"),
    (ofStr "יום שבת", ofStr "saturday") ]

/-- `self.event_keywords` -/
def event_keywords : List (Str × List Str) :=
  [ (ofStr "meeting", [ofStr "meeting", ofStr "meet", ofStr "call", ofStr "conference", ofStr "discussion", ofStr "פגישה", ofStr "פגש"]),
    (ofStr "appointment", [ofStr "appointment", ofStr "visit", ofStr "checkup", ofStr "session", ofStr "תור"]),
    (ofStr "social", [ofStr "lunch", ofStr "dinner", ofStr "coffee", ofStr "drink", ofStr "party", ofStr "event", ofStr "ארוחה", ofStr "קפה"]),
    (ofStr "work", [ofStr "standup", ofStr "review", ofStr "interview", ofStr "presentation", ofStr "demo", ofStr "עבודה"]),
    (ofStr "personal", [ofStr "workout", ofStr "gym", ofStr "doctor", ofStr "dentist", ofStr "haircut", ofStr "רופא", ofStr "רופאה", ofStr "אימון"]) ]

/-- The abbreviation table of `preprocess_text`, in insertion order. -/
def replacements : List (Str × Str) :=
  [ (ofStr "tmrw", ofStr "tomorrow"),
    (ofStr "tom", ofStr "tomorrow"),
    (ofStr "tomorow", ofStr "tomorrow"),
    (ofStr "tomoroworrow", ofStr "tomorrow"),
    (ofStr "mins", ofStr "minutes"),
    (ofStr "hr", ofStr "hour"),
    (ofStr "hrs", ofStr "hours"),
    (ofStr "w/", ofStr "with"),
    (ofStr "mtg", ofStr "meeting"),
    (ofStr "appt", ofStr "appointment") ]

/-- `preprocess_text`: lowercase, expand abbreviations by literal
replacement in table order, collapse whitespace. -/
def preprocess_text (text : Str) : Str :=
  let t := pyLower text
  let t := replacements.foldl (fun acc p => pyReplace acc p.1 p.2) t
  collapseWs t

/-- `o'clock` (built without a quote character in a string literal). -/
def oclockW : Str := 'o' :: '\'' :: ofStr "clock"

/-- `is_time_expression`'s word list. -/
def time_words : List Str :=
  [ofStr "am", ofStr "pm", ofStr "morning", ofStr "afternoon", ofStr "evening",
   ofStr "tonight", ofStr "hour", ofStr "minute", oclockW, ofStr "בשעה", ofStr "שעה"]

/-- `\d+:\d+|\d+\s*(am|pm)` -/
def timeExprRE : RE :=
  .alt (rcat [dplus, .lit ':', dplus])
       (rcat [dplus, wstar, .grp 1 (.alt (lits "am") (lits "pm"))])

def is_time_expression (t : Str) : Bool :=
  time_words.any (fun w => containsSub (pyLower t) w) ∨ reTest timeExprRE t

/-- `is_date_word`'s list; the test is exact membership of the lowercased
text. -/
def date_words : List Str :=
  [ofStr "today", ofStr "tomorrow", ofStr "yesterday", ofStr "monday", ofStr "tuesday",
   ofStr "wednesday", ofStr "thursday", ofStr "friday", ofStr "saturday", ofStr "sunday",
   ofStr "next", ofStr "this", ofStr "last", ofStr "היום", ofStr "מחר", ofStr "ראשון",
   ofStr "שני", ofStr "שלישי", ofStr "רביעי", ofStr "חמישי", ofStr "שישי", ofStr "שבת"]

def is_date_word (t : Str) : Bool := date_words.contains (pyLower t)

/-- `convert_to_24h` -/
def convert_to_24h (hour : Nat) (ampm : Str) : Nat :=
  if pyLower ampm = ofStr "am" then
    if hour = 12 then 0 else hour
  else
    if hour = 12 then 12 else hour + 12

structure TimeInfo where
  hour : Nat
  minute : Nat
  endHour : Option Nat
  endMinute : Option Nat
deriving Repr, DecidableEq

/-- `(\d{1,2})(?::(\d{2}))?\s*-\s*(\d{1,2})(?::(\d{2}))?\s*(am|pm)` -/
def rangeTimeRE : RE :=
  rcat [.grp 1 d12, ropt (rcat [.lit ':', .grp 2 d2]), wstar, .lit '-', wstar,
        .grp 3 d12, ropt (rcat [.lit ':', .grp 4 d2]), wstar,
        .grp 5 (.alt (lits "am") (lits "pm"))]

/-- `(\d{1,2})(?::(\d{2}))?\s*(am|pm)` -/
def singleTimeRE : RE :=
  rcat [.grp 1 d12, ropt (rcat [.lit ':', .grp 2 d2]), wstar,
        .grp 3 (.alt (lits "am") (lits "pm"))]

/-- `(\d{1,2}):(\d{2})(?!\s*(?:am|pm))` -/
def t24RE : RE :=
  rcat [.grp 1 d12, .lit ':', .grp 2 d2,
        .nla (rcat [wstar, .alt (lits "am") (lits "pm")])]

/-- `extract_time_from_text_improved`: the three patterns in source
order; only the 24-hour branch validates ranges (am/pm hours such as
`13pm` flow through `convert_to_24h` unchecked). A 24-hour match that
fails validation falls off the end of the loop (no later pattern). -/
def extract_time_from_text_improved (text : Str) : Option TimeInfo :=
  match researchGroups rangeTimeRE text with
  | some g =>
    let sh := digitsToNat ((getGroup g 1).getD [])
    let sm := match getGroup g 2 with | some d => digitsToNat d | none => 0
    let eh := digitsToNat ((getGroup g 3).getD [])
    let em := match getGroup g 4 with | some d => digitsToNat d | none => 0
    let ampm := (getGroup g 5).getD []
    some { hour := convert_to_24h sh ampm, minute := sm,
           endHour := some (convert_to_24h eh ampm), endMinute := some em }
  | none =>
    match researchGroups singleTimeRE text with
    | some g =>
      let h := digitsToNat ((getGroup g 1).getD [])
      let m := match getGroup g 2 with | some d => digitsToNat d | none => 0
      let ampm := (getGroup g 3).getD []
      some { hour := convert_to_24h h ampm, minute := m, endHour := none, endMinute := none }
    | none =>
      match researchGroups t24RE text with
      | some g =>
        let h := digitsToNat ((getGroup g 1).getD [])
        let m := digitsToNat ((getGroup g 2).getD [])
        if h ≤ 23 ∧ m ≤ 59 then
          some { hour := h, minute := m, endHour := none, endMinute := none }
        else none
      | none => none

/-- The Hebrew-date loop shared by `extract_hebrew_datetime` and
`extract_date_from_text`: first vocabulary entry contained in the text
whose translation dateparser resolves. -/
def hebrewFindDate (o : Oracle) : List (Str × Str) → Str → Option DateTime
  | [], _ => none
  | (heb, eng) :: rest, text =>
    if containsSub text heb then
      match o.dateparse eng with
      | some d => some d
      | none => hebrewFindDate o rest text
    else hebrewFindDate o rest text

/-- `hebrew_time_patterns` with each pattern's group count
(`בשעה (H):(MM)`, `בשעה (H)`, `ב(H):(MM)`, `(H):(MM)`). -/
def hebrew_time_patterns : List (RE × Nat) :=
  [ (rcat [lits "בשעה", wplus, .grp 1 d12, .lit ':', .grp 2 d2], 2),
    (rcat [lits "בשעה", wplus, .grp 1 d12], 1),
    (rcat [lits "ב", .grp 1 d12, .lit ':', .grp 2 d2], 2),
    (rcat [.grp 1 d12, .lit ':', .grp 2 d2], 2) ]

/-- The minute of a Hebrew time match:
`int(match.group(2)) if len(match.groups()) >= 2 and match.group(2) else 0`. -/
def minuteOfMatch (g : Groups) (ngroups : Nat) : Nat :=
  if 2 ≤ ngroups then
    match getGroup g 2 with | some d => digitsToNat d | none => 0
  else 0

/-- The Hebrew-time loop: first pattern whose match passes the
`0 <= hour <= 23 and 0 <= minute <= 59` check (an out-of-range match
does not stop the loop). -/
def findTimeIn : List (RE × Nat) → Str → Option (Nat × Nat)
  | [], _ => none
  | (re, ngroups) :: rest, text =>
    match researchGroups re text with
    | some g =>
      let hour := digitsToNat ((getGroup g 1).getD [])
      let minute := minuteOfMatch g ngroups
      if hour ≤ 23 ∧ minute ≤ 59 then some (hour, minute)
      else findTimeIn rest text
    | none => findTimeIn rest text

structure DTInfo where
  start : DateTime
  stop : Option DateTime
deriving Repr, DecidableEq

/-- `extract_hebrew_datetime` (its result dict never carries an `end`). -/
def extract_hebrew_datetime (o : Oracle) (text : Str) : Except PyErr (Option DTInfo) :=
  let hebrew_date := hebrewFindDate o hebrew_days text
  let hebrew_time := findTimeIn hebrew_time_patterns text
  match hebrew_date, hebrew_time with
  | some d, some (h, m) => do
    let c ← d.replaceHM h m
    return some { start := c, stop := none }
  | some d, none => do
    let c ← d.replaceHM 9 0
    return some { start := c, stop := none }
  | none, some (h, m) => do
    let c ← o.now.replaceHM h m
    return some { start := c, stop := none }
  | none, none => return none

/-- The ordered English vocabulary of `extract_date_from_text`. -/
def date_patterns : List Str :=
  [ofStr "tomorrow", ofStr "today", ofStr "tonight",
   ofStr "next monday", ofStr "next tuesday", ofStr "next wednesday", ofStr "next thursday",
   ofStr "next friday", ofStr "next saturday", ofStr "next sunday",
   ofStr "this monday", ofStr "this tuesday", ofStr "this wednesday", ofStr "this thursday",
   ofStr "this friday", ofStr "this saturday", ofStr "this sunday",
   ofStr "monday", ofStr "tuesday", ofStr "wednesday", ofStr "thursday", ofStr "friday",
   ofStr "saturday", ofStr "sunday"]

def findDatePattern (o : Oracle) : List Str → Str → Option DateTime
  | [], _ => none
  | p :: rest, textLower =>
    if containsSub textLower p then
      match o.dateparse p with
      | some d => some d
      | none => findDatePattern o rest textLower
    else findDatePattern o rest textLower

/-- `extract_date_from_text`: the Hebrew vocabulary first, then the
English patterns in priority order over the lowercased text. -/
def extract_date_from_text (o : Oracle) (text : Str) : Option DateTime :=
  match hebrewFindDate o hebrew_days text with
  | some d => some d
  | none => findDatePattern o date_patterns (pyLower text)

/-- `extract_datetime`: combine a separately-extracted time and date
when both are present (`end` only when the range's end hour is truthy,
so an end hour of 0 is dropped), else fall back to dateparser on the
whole text. -/
def extract_datetime (o : Oracle) (text : Str) : Except PyErr (Option DTInfo) :=
  match extract_time_from_text_improved text, extract_date_from_text o text with
  | some tp, some dp => do
    let combined ← dp.replaceHM tp.hour tp.minute
    match tp.endHour with
    | some eh =>
      if eh ≠ 0 then do
        let e ← dp.replaceHM eh (tp.endMinute.getD 0)
        return some { start := combined, stop := some e }
      else
        return some { start := combined, stop := none }
    | none => return some { start := combined, stop := none }
  | _, _ =>
    match o.dateparse text with
    | some dt => .ok (some { start := dt, stop := none })
    | none => .ok none

/-- `extract_datetime_enhanced`: the Hebrew extractor wins whenever it
returns anything. -/
def extract_datetime_enhanced (o : Oracle) (text : Str) : Except PyErr (Option DTInfo) := do
  let h ← extract_hebrew_datetime o text
  match h with
  | some r => return some r
  | none => extract_datetime o text

/-- `clean_title`: drop one leading article, then `str.title()` of the
stripped remainder. -/
def clean_title (title : Str) : Str :=
  let tl := pyLower title
  let t :=
    if pyStartsWith tl (ofStr "a ") then title.drop 2
    else if pyStartsWith tl (ofStr "an ") then title.drop 3
    else if pyStartsWith tl (ofStr "the ") then title.drop 4
    else title
  pyTitle (pyStrip t)

/-! The six `hebrew_title_patterns` of `extract_title`, in order. -/

def titleTailHeb : RE :=
  rcat [wplus, alts [lits "מחר", lits "היום", lits "בשעה", rcat [d12, .lit ':', d2]]]

def titleP1 : RE :=
  rcat [.grp 1 (rcat [lits "פגישה", wplus, lits "עם", wplus, dotplusL]), titleTailHeb]

def titleP2 : RE := rcat [.grp 1 (rcat [lits "תור", wplus, dotplusL]), titleTailHeb]

def titleP3 : RE :=
  rcat [.grp 1 dotplusL, wplus, .alt (lits "מחר") (lits "היום"), rcat [wplus, lits "בשעה"]]

def engMarkers : List RE :=
  [lits "on", lits "at", lits "for", lits "tomorrow", lits "today", lits "next",
   lits "this", lits "monday", lits "tuesday", lits "wednesday", lits "thursday",
   lits "friday", lits "saturday", lits "sunday"]

def titleTailEng : RE :=
  rcat [wplus, alts (engMarkers ++ [rcat [d12, .alt (lits "am") (lits "pm")]])]

def titleP4 : RE :=
  rcat [alts [lits "meeting", lits "call", lits "appointment", lits "session"],
        wplus, ropt (rcat [lits "with", wplus]), .grp 1 dotplusL, titleTailEng]

def titleP5 : RE :=
  rcat [.grp 1 dotplusL, wplus,
        alts [lits "meeting", lits "appointment", lits "call", lits "session"], titleTailEng]

def titleP6 : RE :=
  rcat [.grp 1 dotplusL,
        rcat [wplus, alts (engMarkers ++
          [lits "מחר", lits "היום", lits "בשעה",
           rcat [d12, alts [lits ":", lits "am", lits "pm"]]])]]

def hebrew_title_patterns : List RE := [titleP1, titleP2, titleP3, titleP4, titleP5, titleP6]

/-- Strategy 1 of `extract_title`: first pattern whose stripped capture
passes the length/time/date filters; a failing capture moves on to the
next pattern. -/
def titleFromPatterns : List RE → Str → Option Str
  | [], _ => none
  | p :: rest, text =>
    match researchGroups p text with
    | some g =>
      let title := pyStrip ((getGroup g 1).getD [])
      if 1 < title.length ∧ ¬ is_time_expression title ∧ ¬ is_date_word title then
        some (clean_title title)
      else titleFromPatterns rest text
    | none => titleFromPatterns rest text

def joinComma : List Str → Str
  | [] => []
  | [w] => w
  | w :: ws => w ++ ',' :: ' ' :: joinComma ws

/-- Strategy 2 of `extract_title`: spaCy entities (EVENT, then PERSONs,
then first ORG); these returns bypass `clean_title`. -/
def titleFromEntities (ents : List Ent) : Option Str :=
  let persons := (ents.filter (fun e => e.label = ofStr "PERSON")).map (·.text)
  let orgs := (ents.filter (fun e => e.label = ofStr "ORG")).map (·.text)
  let events := (ents.filter (fun e => e.label = ofStr "EVENT")).map (·.text)
  match events with
  | ev :: _ => some ev
  | [] =>
    match persons with
    | _ :: _ => some (ofStr "Meeting with " ++ joinComma persons)
    | [] =>
      match orgs with
      | og :: _ => some (ofStr "Meeting with " ++ og)
      | [] => none

def context_skip : List Str :=
  [ofStr "on", ofStr "at", ofStr "for", ofStr "with", ofStr "a", ofStr "an",
   ofStr "the", ofStr "and", ofStr "עם", ofStr "ב", ofStr "ו"]

/-- Strategy 3 of `extract_title`: first event keyword contained in the
text; around the first word containing it, the window `[i-2, i+4)` is
filtered and must keep at least 2 words, of which the first 4 are
joined. -/
def titleFromKeyword (text : Str) (words : List Str) : Option Str :=
  event_keywords.findSome? fun ck =>
    ck.2.findSome? fun kw =>
      if containsSub (pyLower text) kw then
        words.enum.findSome? fun iw =>
          if containsSub (pyLower iw.2) (pyLower kw) then
            let cs := iw.1 - 2
            let ce := min words.length (iw.1 + 4)
            let ctx := ((List.range' cs (ce - cs)).map (fun j => words.getD j [])).filter
              (fun wj => ¬ is_time_expression wj ∧ ¬ is_date_word wj ∧
                ¬ context_skip.contains (pyLower wj))
            if 2 ≤ ctx.length then some (clean_title (joinSpace (ctx.take 4))) else none
          else none
      else none

def skip_words : List Str :=
  [ofStr "schedule", ofStr "add", ofStr "create", ofStr "set", ofStr "up",
   ofStr "book", ofStr "plan", ofStr "have", ofStr "a", ofStr "an", ofStr "the"]

/-- Strategy 4 of `extract_title`: up to 3 meaningful words from the
start of the message. -/
def collectMeaningful : List Str → List Str → List Str
  | [], acc => acc.reverse
  | w :: rest, acc =>
    if ¬ skip_words.contains (pyLower w) ∧ ¬ is_time_expression w ∧
        ¬ is_date_word w ∧ 1 < w.length then
      let acc' := w :: acc
      if 3 ≤ acc'.length then acc'.reverse else collectMeaningful rest acc'
    else collectMeaningful rest acc

/-- `extract_title` (`doc.ents` provided by the oracle). -/
def extract_title (o : Oracle) (text : Str) : Option Str :=
  match titleFromPatterns hebrew_title_patterns text with
  | some t => some t
  | none =>
    match titleFromEntities o.ents with
    | some t => some t
    | none =>
      let words := pySplit text
      match titleFromKeyword text words with
      | some t => some t
      | none =>
        let mw := collectMeaningful words []
        if mw ≠ [] then some (clean_title (joinSpace mw)) else none

/-! The four `location_patterns` of `extract_location`. -/

def locMarkers : List RE :=
  [lits "on", lits "at", lits "for", lits "tomorrow", lits "today", lits "next",
   lits "this", RE.digit]

def locP1 : RE :=
  rcat [alts [lits "at", lits "in", lits "@"], wplus,
        .grp 1 (rcat [rplus .notCS, rstarL (rcat [wplus, rplus .notCS])]),
        .alt (rcat [wplus, alts locMarkers]) .eos]

def locP2 : RE := rcat [lits "room", wplus, .grp 1 (rplus .alnum)]

def locP3 : RE :=
  rcat [lits "office", wplus, .grp 1 (rplusL .alnumWs),
        .alt (rcat [wplus, alts locMarkers]) .eos]

def locP4 : RE := rcat [lits "conference", wplus, lits "room", wplus, .grp 1 (rplus .alnum)]

/-- `extract_location`: entity spans (GPE/LOC/FAC/ORG) then all pattern
captures, first candidate longer than 1 that is not a time expression,
else the empty string. -/
def extract_location (o : Oracle) (text : Str) : Str :=
  let entLocs := (o.ents.filter (fun e =>
    e.label = ofStr "GPE" ∨ e.label = ofStr "LOC" ∨ e.label = ofStr "FAC" ∨
    e.label = ofStr "ORG")).map (·.text)
  let patLocs := ([locP1, locP2, locP3, locP4].map (fun p =>
    (refindall p text).filterMap (fun m =>
      if m ≠ [] ∧ 0 < (pyStrip m).length then some (pyStrip m) else none))).flatten
  match (entLocs ++ patLocs).find? (fun l => 1 < l.length ∧ ¬ is_time_expression l) with
  | some l => l
  | none => []

/-! `extract_duration`: five patterns, each flagged with the source's
`'h' in pattern` test (true for patterns 1, 3 and 5 — the pattern texts
of 1 and 3 contain the letter `h` inside `hours?|hrs?`, which sends
their unit capture into `int()` and raises `ValueError`, silently
skipping to the next pattern). -/

def durHours : RE := .alt (rcat [lits "hour", ropt (.lit 's')]) (rcat [lits "hr", ropt (.lit 's')])

def durMins : RE := .alt (rcat [lits "minute", ropt (.lit 's')]) (rcat [lits "min", ropt (.lit 's')])

def durTail : RE := alts [lits "long", lits "meeting", lits "session"]

def durP1 : RE := rcat [lits "for", wplus, .grp 1 dplus, wplus, .grp 2 durHours]

def durP2 : RE := rcat [lits "for", wplus, .grp 1 dplus, wplus, .grp 2 durMins]

def durP3 : RE := rcat [.grp 1 dplus, wplus, .grp 2 durHours, wplus, durTail]

def durP4 : RE := rcat [.grp 1 dplus, wplus, .grp 2 durMins, wplus, durTail]

def durP5 : RE := rcat [.grp 1 dplus, wstar, .lit 'h', wstar, ropt (.grp 2 dplus), ropt (.lit 'm')]

def duration_patterns : List (RE × Bool) :=
  [(durP1, true), (durP2, false), (durP3, true), (durP4, false), (durP5, true)]

/-- `int()` applied to a capture: succeeds exactly on non-empty digit
strings (else `ValueError`). -/
def pyIntOf (s : Str) : Option Nat :=
  if s ≠ [] ∧ s.all isDigitChar then some (digitsToNat s) else none

/-- The pattern loop of `extract_duration`; results in minutes. -/
def durFromPatterns : List (RE × Bool) → Str → Option Nat
  | [], _ => none
  | (p, hasH) :: rest, text =>
    match researchGroups p text with
    | some g =>
      let r :=
        if hasH then
          match pyIntOf ((getGroup g 1).getD []) with
          | none => none
          | some hours =>
            match getGroup g 2 with
            | some g2 =>
              if g2 ≠ [] then
                match pyIntOf g2 with
                | some minutes => some (hours * 60 + minutes)
                | none => none
              else some (hours * 60)
            | none => some (hours * 60)
        else
          match pyIntOf ((getGroup g 1).getD []) with
          | none => none
          | some num =>
            let unit := pyLower ((getGroup g 2).getD [])
            if containsSub unit (ofStr "hour") ∨ containsSub unit (ofStr "hr") then
              some (num * 60)
            else if containsSub unit (ofStr "minute") ∨ containsSub unit (ofStr "min") then
              some num
            else none
      match r with
      | some d => some d
      | none => durFromPatterns rest text
    | none => durFromPatterns rest text

def extract_duration (text : Str) : Option Nat :=
  durFromPatterns duration_patterns text

/-- `get_default_duration`, in minutes. -/
def get_default_duration (title : Str) : Nat :=
  let tl := pyLower title
  if [ofStr "standup", ofStr "daily", ofStr "brief"].any (containsSub tl) then 15
  else if [ofStr "lunch", ofStr "dinner", ofStr "coffee", ofStr "drink",
           ofStr "ארוחה", ofStr "קפה"].any (containsSub tl) then 60
  else if [ofStr "doctor", ofStr "dentist", ofStr "appointment",
           ofStr "רופא", ofStr "רופאה", ofStr "תור"].any (containsSub tl) then 30
  else if [ofStr "interview", ofStr "presentation", ofStr "demo"].any (containsSub tl) then 60
  else if [ofStr "workout", ofStr "gym", ofStr "exercise", ofStr "אימון"].any (containsSub tl) then 60
  else if [ofStr "פגישה", ofStr "meeting"].any (containsSub tl) then 60
  else 60

/-- `calculate_confidence` -/
def calculate_confidence (title : Str) (datetime_info : Option DTInfo)
    (location : Str) (original_text : Str) : Nat :=
  let s1 :=
    if title ≠ [] then
      (if 2 < title.length then 20 else 0) +
      (if event_keywords.any (fun ck => ck.2.any (fun kw => containsSub (pyLower title) kw))
        then 10 else 0) +
      (if 2 ≤ (pySplit title).length then 10 else 0)
    else 0
  let s2 :=
    match datetime_info with
    | some di => 30 + (match di.stop with | some _ => 10 | none => 0)
    | none => 0
  let s3 := if location ≠ [] ∧ 1 < location.length then 10 else 0
  let s4 :=
    (if 4 ≤ (pySplit original_text).length then 5 else 0) +
    (if [ofStr "schedule", ofStr "add", ofStr "create", ofStr "meeting",
         ofStr "appointment", ofStr "פגישה", ofStr "תור"].any
        (fun w => containsSub (pyLower original_text) w) then 5 else 0)
  min (s1 + s2 + s3 + s4) 100

/-! The five `calendar_patterns` of `extract_calendar_name`. -/

def calP1 : RE := rcat [lits "calendar", wplus, .grp 1 dotplusL, .eos]

def calP2 : RE := rcat [lits "in", wplus, lits "calendar", wplus, .grp 1 dotplusL, .eos]

def calP3 : RE := rcat [lits "to", wplus, lits "calendar", wplus, .grp 1 dotplusL, .eos]

def calP4 : RE :=
  rcat [alts [lits "in", lits "to", lits "on"], wplus, lits "calendar", wplus,
        .grp 1 (rplus .anyc)]

def calP5 : RE :=
  rcat [lits "calendar", wplus, .grp 1 (rcat [.notWsp, dotplusL]), wstar, .eos]

def calendarNameFrom : List RE → Str → Option Str
  | [], _ => none
  | p :: rest, text =>
    match researchGroups p text with
    | some g =>
      let nm := pyStrip ((getGroup g 1).getD [])
      if 2 ≤ nm.length then some nm else calendarNameFrom rest text
    | none => calendarNameFrom rest text

/-- `extract_calendar_name` -/
def extract_calendar_name (text : Str) : Option Str :=
  calendarNameFrom [calP1, calP2, calP3, calP4, calP5] text

/-- The parse result dict of `parse_event`. -/
structure Event where
  title : Str
  start_time : DateTime
  end_time : DateTime
  location : Str
  confidence : Nat
  original_text : Str
deriving Repr, DecidableEq

/-- The end-time derivation of `parse_event` (nlp_service.py:72-82): the
explicit extracted end if present, else start plus the explicit duration
when that is truthy (a zero `timedelta` is falsy in Python), else start
plus the category default. -/
def parsedEnd (di : DTInfo) (duration : Option Nat) (title : Str) : DateTime :=
  match di.stop with
  | some e => e
  | none =>
    match duration with
    | some d =>
      if d ≠ 0 then di.start.addMinutes d
      else di.start.addMinutes (get_default_duration title)
    | none => di.start.addMinutes (get_default_duration title)

/-- `parse_event`: preprocess, extract the components, then assemble.
The source computes the (pure) title, location and duration extractions
alongside the fallible datetime extraction before any check, so only a
datetime `ValueError` can escape, and it does so regardless of the title
(`if not title` treats both `None` and the empty string as failure). -/
def parse_event (o : Oracle) (text0 : Str) : Except PyErr (Option Event) :=
  match extract_datetime_enhanced o (preprocess_text text0) with
  | .error e => .error e
  | .ok datetime_info =>
    match extract_title o (preprocess_text text0) with
    | none => .ok none
    | some [] => .ok none
    | some (tc :: trest) =>
      match datetime_info with
      | none => .ok none
      | some di =>
        .ok (some { title := tc :: trest, start_time := di.start,
                    end_time := parsedEnd di (extract_duration (preprocess_text text0))
                      (tc :: trest),
                    location := extract_location o (preprocess_text text0),
                    confidence := calculate_confidence (tc :: trest) (some di)
                      (extract_location o (preprocess_text text0))
                      (preprocess_text text0),
                    original_text := preprocess_text text0 })

/-! ## main.py -/

/-! `should_try_nlp`'s pattern and vocabulary tables. -/

def nonEventP1 : RE :=
  .grp 1 (alts [lits "what", lits "when", lits "where", lits "how", lits "why", lits "who"])

def nonEventP2 : RE :=
  .grp 1 (alts [lits "yes", lits "no", lits "ok", lits "okay", lits "thanks", lits "thank you"])

/-- `^\d+$` -/
def nonEventP3 : RE := rcat [dplus, .eos]

/-- `^[a-z]$` -/
def nonEventP4 : RE := rcat [.lowaz, .eos]

def non_event_patterns : List RE := [nonEventP1, nonEventP2, nonEventP3, nonEventP4]

def strong_indicators : List Str :=
  [ofStr "meeting", ofStr "appointment", ofStr "call", ofStr "lunch", ofStr "dinner",
   ofStr "coffee", ofStr "schedule", ofStr "book", ofStr "plan", ofStr "create",
   ofStr "add", ofStr "set up", ofStr "doctor", ofStr "dentist", ofStr "interview",
   ofStr "presentation", ofStr "demo", ofStr "standup", ofStr "review", ofStr "workout",
   ofStr "gym", ofStr "party", ofStr "event", ofStr "פגישה", ofStr "תור", ofStr "פגש",
   ofStr "ארוחה", ofStr "קפה", ofStr "רופא", ofStr "רופאה"]

def time_indicators : List Str :=
  [ofStr "tomorrow", ofStr "today", ofStr "tonight", ofStr "morning", ofStr "afternoon",
   ofStr "evening", ofStr "monday", ofStr "tuesday", ofStr "wednesday", ofStr "thursday",
   ofStr "friday", ofStr "saturday", ofStr "sunday", ofStr "next week", ofStr "this week",
   ofStr "next month", ofStr "next monday", ofStr "this friday", ofStr "am", ofStr "pm",
   oclockW, ofStr "מחר", ofStr "היום", ofStr "בוקר", ofStr "צהריים", ofStr "ערב",
   ofStr "לילה", ofStr "ראשון", ofStr "שני", ofStr "שלישי", ofStr "רביעי", ofStr "חמישי",
   ofStr "שישי", ofStr "שבת", ofStr "בשעה", ofStr "ב"]

def person_indicators : List Str :=
  [ofStr "with", ofStr "and", ofStr "john", ofStr "sarah", ofStr "mike", ofStr "team",
   ofStr "client", ofStr "boss", ofStr "עם", ofStr "ו"]

def action_words : List Str :=
  [ofStr "meet", ofStr "see", ofStr "visit", ofStr "go to", ofStr "attend"]

def ntimeP1 : RE := rcat [d12, .lit ':', d2, wstar, .grp 1 (.alt (lits "am") (lits "pm"))]

def ntimeP2 : RE := rcat [d12, wstar, .grp 1 (.alt (lits "am") (lits "pm"))]

def ntimeP3 : RE := rcat [d12, .lit '-', d12, wstar, .grp 1 (.alt (lits "am") (lits "pm"))]

def ntimeP4 : RE := rcat [d12, .lit ':', d2]

def ntimeP5 : RE := rcat [lits "בשעה", wplus, d12]

def ntime_patterns : List RE := [ntimeP1, ntimeP2, ntimeP3, ntimeP4, ntimeP5]

/-- `should_try_nlp`: messages under 3 words are rejected before
anything else; then non-event starts reject, strong indicators accept,
time indicators paired with person/action words accept, and explicit
clock patterns accept. -/
def should_try_nlp (message_text : Str) : Bool :=
  if (pySplit message_text).length < 3 then false
  else
    let message_lower := pyLower message_text
    if non_event_patterns.any (fun p => rematch p message_lower) then false
    else if strong_indicators.any (fun w => containsSub message_lower w) then true
    else if time_indicators.any (fun w => containsSub message_lower w) ∧
        person_indicators.any (fun w => containsSub message_lower w) then true
    else if time_indicators.any (fun w => containsSub message_lower w) ∧
        action_words.any (fun w => containsSub message_lower w) then true
    else if ntime_patterns.any (fun p => reTest p message_lower) then true
    else false

structure Calendar where
  id : Str
  name : Str
  access_role : Str
  primary : Bool
deriving Repr, DecidableEq

/-- `find_matching_calendar` (main.py:305-320): exact match on the
lowered+stripped names, else exact match after collapsing internal
whitespace; there is no third stage. -/
def find_matching_calendar (requested_name : Str) (calendars : List Calendar) :
    Option Calendar :=
  let requested_lower := pyStrip (pyLower requested_name)
  match calendars.find? (fun c => pyStrip (pyLower c.name) == requested_lower) with
  | some c => some c
  | none =>
    calendars.find? (fun c =>
      collapseWs (pyLower c.name) == collapseWs requested_lower)

/-- Modelled from the spec (§4.7 **Calendar name matching**): the same
two exact stages followed by the substring stage the spec describes —
"substring match only if the requested name is ≥3 characters and
constitutes at least 70% of the candidate calendar's name length".
Stated only to be compared with `find_matching_calendar`. -/
def find_matching_calendar_spec (requested_name : Str) (calendars : List Calendar) :
    Option Calendar :=
  let requested_lower := pyStrip (pyLower requested_name)
  match calendars.find? (fun c => pyStrip (pyLower c.name) == requested_lower) with
  | some c => some c
  | none =>
    match calendars.find? (fun c =>
        collapseWs (pyLower c.name) == collapseWs requested_lower) with
    | some c => some c
    | none =>
      calendars.find? (fun c =>
        containsSub (pyStrip (pyLower c.name)) requested_lower ∧
        3 ≤ requested_lower.length ∧
        7 * (pyStrip (pyLower c.name)).length ≤ 10 * requested_lower.length)

/-! ## Conversation state machine (main.py + app/models/user.py) -/

inductive Step where
  | confirm_event
  | choose_calendar
  | edit_event
deriving Repr, DecidableEq

/-- An ISO-8601 timestamp string as stashed by `make_json_serializable`:
either it round-trips through `datetime.fromisoformat` to a datetime, or
it is malformed and `fromisoformat` raises `ValueError`. -/
inductive IsoStr where
  | iso (d : DateTime)
  | malformed
deriving Repr, DecidableEq

structure SerEvent where
  title : Str
  start_time : IsoStr
  end_time : IsoStr
  location : Str
  confidence : Nat
  original_text : Str
deriving Repr, DecidableEq

/-- `make_json_serializable` -/
def make_json_serializable (ev : Event) : SerEvent :=
  { title := ev.title, start_time := .iso ev.start_time, end_time := .iso ev.end_time,
    location := ev.location, confidence := ev.confidence,
    original_text := ev.original_text }

def fromisoformat : IsoStr → Except PyErr DateTime
  | .iso d => .ok d
  | .malformed => .error .valueError

/-- `make_json_deserializable` on a present event dict
(`fromisoformat` on the start string runs first, as in the source). -/
def make_json_deserializable (se : SerEvent) : Except PyErr Event :=
  match fromisoformat se.start_time, fromisoformat se.end_time with
  | .error e, _ => .error e
  | _, .error e => .error e
  | .ok s, .ok e =>
    .ok { title := se.title, start_time := s, end_time := e, location := se.location,
          confidence := se.confidence, original_text := se.original_text }

/-- The conversation-state payload dict (`parsed_event`,
`selected_calendar`, `calendars`; absent keys are `none`/`[]`). -/
structure ConvData where
  parsed_event : Option SerEvent
  selected_calendar : Option Calendar
  calendars : List Calendar
deriving Repr, DecidableEq

/-- The conversation-relevant fields of the persisted `User` row.
`conversation_state` is the parsed JSON payload (`none` both for an
absent and for an unparseable payload, as in `get_conversation_state`);
`conversation_updated` is in epoch seconds; `connected` stands for a
truthy `google_access_token`. -/
structure UserState where
  language : Str
  connected : Bool
  conversation_step : Option Step
  conversation_state : Option ConvData
  conversation_updated : Option Int
deriving Repr, DecidableEq

/-- `User.is_conversation_expired` (user.py:62-68); `now` is
`datetime.utcnow()` in epoch seconds. -/
def is_conversation_expired (now : Int) (u : UserState) (timeout_minutes : Int) : Bool :=
  match u.conversation_updated with
  | none => true
  | some t => now - t > timeout_minutes * 60

/-- `User.clear_conversation_state` -/
def clear_conversation_state (u : UserState) : UserState :=
  { u with conversation_step := none, conversation_state := none,
           conversation_updated := none }

/-- `User.set_conversation_state` -/
def set_conversation_state (now : Int) (u : UserState) (step : Step)
    (data : Option ConvData) : UserState :=
  { u with conversation_step := some step, conversation_state := data,
           conversation_updated := some now }

/-- The user-facing responses, abstracted to which branch produced them
and with what payload (the concrete localized strings, the calendar
write and the reminder scheduling are external collaborators). -/
inductive Resp where
  | notConnectedNlp
  | notConnected
  | nlpFailed
  | unknownCommand
  | createdSpecific (ev : Event) (cal : Calendar)
  | createdAuto (ev : Event) (cals : List Calendar)
  | createdDefault (ev : Event)
  | createError
  | calNotFound (nm : Str) (ev : Event) (cals : List Calendar)
  | chooseCalPrompt (ev : Event) (cals : List Calendar)
  | confirmPrompt (ev : Event)
  | understandPrompt (ev : Event)
  | cancelledEvent
  | dataLost
  | editPrompt
  | reprompt (ev : Event)
  | somethingWrong
  | badIndex (count : Nat)
  | calSelectionCancelled
  | enterNumber (cals : List Calendar)
  | editComingSoon
deriving Repr, DecidableEq

def yes_variants : List Str :=
  [ofStr "yes", ofStr "y", ofStr "confirm", ofStr "create", ofStr "ok", ofStr "okay",
   ofStr "כן", ofStr "אישור"]

def no_variants : List Str :=
  [ofStr "no", ofStr "n", ofStr "cancel", ofStr "nope", ofStr "לא", ofStr "בטל"]

def edit_variants : List Str :=
  [ofStr "edit", ofStr "change", ofStr "modify", ofStr "fix", ofStr "עריכה", ofStr "שנה"]

/-- Accessing `.get` on a possibly-`None` payload: `None.get(...)`
raises `AttributeError`. -/
def pyGetAttr (d : Option ConvData) : Except PyErr ConvData :=
  match d with
  | some v => .ok v
  | none => .error .attributeError

/-- `handle_event_confirmation` (main.py:205-251). Only the branch taken
touches the payload, so a missing payload only raises where the source
calls `.get` on it. The re-prompt branch leaves the user state
untouched. -/
def handle_event_confirmation (now : Int) (u : UserState) (message_text : Str)
    (conversation_data : Option ConvData) : Except PyErr (Resp × UserState) :=
  let message_lower := pyStrip (pyLower message_text)
  if yes_variants.contains message_lower then
    match pyGetAttr conversation_data with
    | .error e => .error e
    | .ok data =>
      match data.parsed_event with
      | some se =>
        match make_json_deserializable se with
        | .error e => .error e
        | .ok parsed_event =>
          match data.selected_calendar with
          | some cal => .ok (.createdSpecific parsed_event cal, clear_conversation_state u)
          | none => .ok (.createdDefault parsed_event, clear_conversation_state u)
      | none => .ok (.dataLost, clear_conversation_state u)
  else if no_variants.contains message_lower then
    .ok (.cancelledEvent, clear_conversation_state u)
  else if edit_variants.contains message_lower then
    .ok (.editPrompt, set_conversation_state now u .edit_event conversation_data)
  else
    match pyGetAttr conversation_data with
    | .error e => .error e
    | .ok data =>
      match data.parsed_event with
      | some se =>
        match make_json_deserializable se with
        | .error e => .error e
        | .ok parsed_event => .ok (.reprompt parsed_event, u)
      | none => .ok (.somethingWrong, clear_conversation_state u)

/-- `int()` applied to raw user text (sign allowed). -/
def pyIntOfStrict (s : Str) : Option Int :=
  let t := pyStrip s
  if t ≠ [] ∧ t.all isDigitChar then some (digitsToNat t)
  else
    match t with
    | '-' :: rest => if rest ≠ [] ∧ rest.all isDigitChar then some (-(digitsToNat rest : Int)) else none
    | _ => none

/-- `try_nlp_event_creation`'s `try`-block (main.py:355-398), with the
parser (`parse_event` plus its oracle) and the calendar list supplied as
parameters. -/
def try_nlp_body (parse : Str → Except PyErr (Option Event)) (cals : List Calendar)
    (now : Int) (u : UserState) (message_text : Str) :
    Except PyErr (Option Resp × UserState) :=
  if ¬ u.connected then .ok (some .notConnectedNlp, u)
  else
    match parse message_text with
    | .error e => .error e
    | .ok none => .ok (none, u)
    | .ok (some parsed_event) =>
      let confidence := parsed_event.confidence
      let writable_calendars := cals.filter (fun c =>
        c.access_role = ofStr "owner" ∨ c.access_role = ofStr "writer")
      match extract_calendar_name message_text with
      | some requested_name =>
        match find_matching_calendar requested_name writable_calendars with
        | some cal => .ok (some (.createdSpecific parsed_event cal), u)
        | none =>
          let ser := make_json_serializable parsed_event
          let u' := set_conversation_state now u .choose_calendar
            (some { parsed_event := some ser, selected_calendar := none,
                    calendars := writable_calendars })
          .ok (some (.calNotFound requested_name parsed_event writable_calendars), u')
      | none =>
        if 1 < writable_calendars.length then
          let ser := make_json_serializable parsed_event
          let u' := set_conversation_state now u .choose_calendar
            (some { parsed_event := some ser, selected_calendar := none,
                    calendars := writable_calendars })
          .ok (some (.chooseCalPrompt parsed_event writable_calendars), u')
        else if 80 ≤ confidence then
          .ok (some (.createdAuto parsed_event writable_calendars), u)
        else if 50 ≤ confidence then
          let ser := make_json_serializable parsed_event
          let u' := set_conversation_state now u .confirm_event
            (some { parsed_event := some ser, selected_calendar := none, calendars := [] })
          .ok (some (.confirmPrompt parsed_event), u')
        else if 30 ≤ confidence then
          let ser := make_json_serializable parsed_event
          let u' := set_conversation_state now u .confirm_event
            (some { parsed_event := some ser, selected_calendar := none, calendars := [] })
          .ok (some (.understandPrompt parsed_event), u')
        else .ok (none, u)

/-- `try_nlp_event_creation` (main.py:355-404): the `except Exception`
handler at main.py:400-404 evaluates `{"phone": phone_number}` where
`phone_number` is not defined in any enclosing scope, so the handler
itself raises `NameError` — an exception from the body escapes as a
`NameError` instead of resolving to `None`. -/
def try_nlp_event_creation (parse : Str → Except PyErr (Option Event))
    (cals : List Calendar) (now : Int) (u : UserState) (message_text : Str) :
    Except PyErr (Option Resp × UserState) :=
  match try_nlp_body parse cals now u message_text with
  | .ok r => .ok r
  | .error _ => .error .nameError

/-- `handle_calendar_selection` (main.py:254-293). The `try` block
covers `int()` and the creation path; only `ValueError` (from `int()` or
`fromisoformat`) reaches the `except` handler. A stashed payload whose
`parsed_event` is absent flows as `None` into the creation call, whose
own catch-all turns it into a failure message (`createError`). -/
def handle_calendar_selection (parse : Str → Except PyErr (Option Event))
    (cals : List Calendar) (now : Int) (u : UserState) (message_text : Str)
    (conversation_data : Option ConvData) : Except PyErr (Option Resp × UserState) :=
  if should_try_nlp message_text then
    try_nlp_event_creation parse cals now (clear_conversation_state u) message_text
  else
    let attempt : Except PyErr (Option Resp × UserState) :=
      match pyIntOfStrict message_text with
      | none => .error .valueError
      | some selection =>
        match pyGetAttr conversation_data with
        | .error e => .error e
        | .ok data =>
          if 1 ≤ selection ∧ selection ≤ (data.calendars.length : Int) then
            match data.parsed_event with
            | some se =>
              match make_json_deserializable se with
              | .error e => .error e
              | .ok parsed_event =>
                .ok (some (.createdSpecific parsed_event
                  (data.calendars.getD (selection.toNat - 1) ⟨[], [], [], false⟩)),
                  clear_conversation_state u)
            | none => .ok (some .createError, clear_conversation_state u)
          else
            .ok (some (.badIndex data.calendars.length), u)
    match attempt with
    | .error .valueError =>
      let message_lower := pyStrip (pyLower message_text)
      if [ofStr "cancel", ofStr "back", ofStr "בטל", ofStr "חזור"].contains message_lower then
        .ok (some .calSelectionCancelled, clear_conversation_state u)
      else
        match pyGetAttr conversation_data with
        | .error e => .error e
        | .ok data => .ok (some (.enterNumber data.calendars), u)
    | r => r

/-- `handle_event_editing` (main.py:296-302). -/
def handle_event_editing (u : UserState) : Resp × UserState :=
  (.editComingSoon, clear_conversation_state u)

/-- `handle_conversation_flow` (main.py:186-202): clears and falls
through when expired, else dispatches on the step. -/
def handle_conversation_flow (parse : Str → Except PyErr (Option Event))
    (cals : List Calendar) (now : Int) (u : UserState) (message_text : Str) :
    Except PyErr (Option Resp × UserState) :=
  if is_conversation_expired now u 30 then .ok (none, clear_conversation_state u)
  else
    let conversation_data := u.conversation_state
    match u.conversation_step with
    | some .confirm_event =>
      match handle_event_confirmation now u message_text conversation_data with
      | .error e => .error e
      | .ok r => .ok (some r.1, r.2)
    | some .choose_calendar =>
      handle_calendar_selection parse cals now u message_text conversation_data
    | some .edit_event =>
      let r := handle_event_editing u
      .ok (some r.1, r.2)
    | none => .ok (none, u)

/-- The conversation gate of `process_message` (main.py:1026-1030):
`handle_conversation_flow` runs only for a present, non-expired state; a
`none` first component means the message falls through to normal command
processing. -/
def conversationGate (parse : Str → Except PyErr (Option Event)) (cals : List Calendar)
    (now : Int) (u : UserState) (message_text : Str) :
    Except PyErr (Option Resp × UserState) :=
  if u.conversation_step.isSome ∧ ¬ is_conversation_expired now u 30 then
    handle_conversation_flow parse cals now u message_text
  else
    .ok (none, u)

/-- The NLP tail of `process_message` (main.py:1080-1095): connection
check, `should_try_nlp` gate, and the mapping of a `None` NLP result to
the `nlp_failed` template. -/
def processNlpTail (parse : Str → Except PyErr (Option Event)) (cals : List Calendar)
    (now : Int) (u : UserState) (message_text : Str) : Except PyErr (Resp × UserState) :=
  if ¬ u.connected then
    if should_try_nlp message_text then .ok (.notConnected, u)
    else .ok (.unknownCommand, u)
  else if should_try_nlp message_text then
    match try_nlp_event_creation parse cals now u message_text with
    | .error e => .error e
    | .ok r =>
      match r.1 with
      | some resp => .ok (resp, r.2)
      | none => .ok (.nlpFailed, r.2)
  else .ok (.unknownCommand, u)

/-! ## Concrete instances used by the claim theorems

`oracleJun10` fixes the scenario of the spec's first example: the
current instant is Monday 2024-06-10 08:30:00 UTC (day 19884 since
1970-01-01), dateparser resolves `tomorrow` to 2024-06-11 (day 19885)
and `friday` to 2024-06-14 (day 19888), both at the current clock time
as dateparser does, and spaCy reports no entities for the lowercased
messages involved. -/

def oracleJun10 : Oracle :=
  { dateparse := fun s =>
      if s = ofStr "tomorrow" then some ⟨19885, 8, 30, 0⟩
      else if s = ofStr "today" then some ⟨19884, 8, 30, 0⟩
      else if s = ofStr "friday" then some ⟨19888, 8, 30, 0⟩
      else none,
    now := ⟨19884, 8, 30, 0⟩,
    ents := [] }

/-- A connected user with no active conversation. -/
def userConn : UserState :=
  { language := ofStr "en", connected := true, conversation_step := none,
    conversation_state := none, conversation_updated := none }

/-- What `parse_event` actually returns for
`"Meeting with John tomorrow at 2pm"` in the `oracleJun10` scenario. -/
def evC3 : Event :=
  { title := ofStr "John", start_time := ⟨19885, 14, 0, 0⟩,
    end_time := ⟨19885, 15, 0, 0⟩, location := [], confidence := 60,
    original_text := ofStr "meeting with john tomorroworrow at 2pm" }

/-- What `parse_event` actually returns for `"meeting tomorrow 3-2pm"`
in the `oracleJun10` scenario: the range end (2pm) precedes the range
start (3pm). -/
def evC1 : Event :=
  { title := ofStr "Meeting", start_time := ⟨19885, 15, 0, 0⟩,
    end_time := ⟨19885, 14, 0, 0⟩, location := [], confidence := 75,
    original_text := ofStr "meeting tomorroworrow 3-2pm" }

/-- What `parse_event` actually returns for `"meeting tomorrow at 2pm"`
in the `oracleJun10` scenario (no explicit end time; the mangled
fallback title gets the default 60-minute duration). -/
def evC1w : Event :=
  { title := ofStr "Tomorroworrow", start_time := ⟨19885, 14, 0, 0⟩,
    end_time := ⟨19885, 15, 0, 0⟩, location := [], confidence := 60,
    original_text := ofStr "meeting tomorroworrow at 2pm" }

def calWorkStuffs : Calendar :=
  { id := ofStr "cal1", name := ofStr "work stuffs", access_role := ofStr "owner",
    primary := true }

def calPersonal : Calendar :=
  { id := ofStr "a", name := ofStr "Personal", access_role := ofStr "owner",
    primary := true }

def evW : Event :=
  { title := ofStr "Team Sync", start_time := ⟨19885, 14, 0, 0⟩,
    end_time := ⟨19885, 15, 0, 0⟩, location := [], confidence := 90,
    original_text := ofStr "team sync tomorroworrow at 2pm" }

def parseW : Str → Except PyErr (Option Event) := fun _ => .ok (some evW)

def parseNone : Str → Except PyErr (Option Event) := fun _ => .ok none

def serC10 : SerEvent :=
  { title := ofStr "Meeting", start_time := .iso ⟨19885, 14, 0, 0⟩,
    end_time := .iso ⟨19885, 15, 0, 0⟩, location := [], confidence := 60,
    original_text := ofStr "meeting tomorroworrow at 2pm" }

def dataC10 : ConvData :=
  { parsed_event := some serC10, selected_calendar := none, calendars := [] }

/-- A user parked in `confirm_event` whose state was last updated at
epoch second 0. -/
def userConfirm0 : UserState :=
  { language := ofStr "en", connected := true,
    conversation_step := some .confirm_event, conversation_state := some dataC10,
    conversation_updated := some 0 }

/-! ## Helper lemmas -/

theorem DateTime.toSec_addMinutes (d : DateTime) (k : Nat) :
    (d.addMinutes k).toSec = d.toSec + k * 60 := by
  unfold DateTime.addMinutes DateTime.toSec
  push_cast
  omega

theorem char_toNat_ofNat_valid (n : Nat) (h : n < 55296) : (Char.ofNat n).toNat = n := by
  unfold Char.ofNat
  rw [dif_pos (Or.inl (by omega))]
  unfold Char.ofNatAux Char.toNat
  simp only [UInt32.toNat, UInt32.ofNat']
  simp [BitVec.toNat_ofNatLt]

theorem lowerChar_idem (c : Char) : lowerChar (lowerChar c) = lowerChar c := by
  unfold lowerChar
  by_cases h : 65 ≤ c.toNat ∧ c.toNat ≤ 90
  · rw [if_pos h]
    have ht : (Char.ofNat (c.toNat + 32)).toNat = c.toNat + 32 :=
      char_toNat_ofNat_valid _ (by omega)
    rw [if_neg (by rw [ht]; omega)]
  · rw [if_neg h, if_neg h]

theorem map_fix {f : Char → Char} : ∀ {l : Str}, (∀ c ∈ l, f c = c) → l.map f = l := by
  intro l
  induction l with
  | nil => intro _; rfl
  | cons c rest ih =>
    intro h
    simp only [List.map_cons]
    rw [h c (by simp), ih (fun x hx => h x (by simp [hx]))]

theorem mem_pyLower_fix {c : Char} {s : Str} (h : c ∈ pyLower s) : lowerChar c = c := by
  unfold pyLower at h
  rcases List.mem_map.1 h with ⟨x, _, rfl⟩
  exact lowerChar_idem x

theorem mem_pyReplaceGo :
    ∀ (fuel : Nat) (s old new : Str) (c : Char),
      c ∈ pyReplaceGo fuel s old new → c ∈ s ∨ c ∈ new := by
  intro fuel
  induction fuel with
  | zero => intro s old new c h; exact Or.inl h
  | succ n ih =>
    intro s old new c h
    match s with
    | [] => cases h
    | x :: rest =>
      rw [pyReplaceGo] at h
      split at h
      · rcases List.mem_append.1 h with h | h
        · exact Or.inr h
        · rcases ih _ old new c h with h | h
          · exact Or.inl ((List.drop_subset _ _) h)
          · exact Or.inr h
      · rcases List.mem_cons.1 h with h | h
        · exact Or.inl (h ▸ List.mem_cons_self x rest)
        · rcases ih rest old new c h with h | h
          · exact Or.inl (List.mem_cons_of_mem x h)
          · exact Or.inr h

theorem pyReplaceGo_noop :
    ∀ (fuel : Nat) (s k v : Str), containsSub s k = false →
      pyReplaceGo fuel s k v = s := by
  intro fuel
  induction fuel with
  | zero => intro s k v _; rfl
  | succ n ih =>
    intro s k v h
    match s with
    | [] => rfl
    | c :: rest =>
      rw [containsSub, Bool.or_eq_false_iff] at h
      rw [pyReplaceGo, if_neg (fun hcond => by rw [h.1] at hcond; exact absurd hcond.2 (by simp)),
        ih rest k v h.2]

theorem mem_foldl_replace :
    ∀ (rs : List (Str × Str)) (t : Str) (c : Char),
      c ∈ rs.foldl (fun acc p => pyReplace acc p.1 p.2) t →
      c ∈ t ∨ ∃ p ∈ rs, c ∈ p.2 := by
  intro rs
  induction rs with
  | nil => intro t c h; exact Or.inl h
  | cons r rest ih =>
    intro t c h
    simp only [List.foldl_cons] at h
    rcases ih _ c h with h' | ⟨p, hp, hcp⟩
    · rcases mem_pyReplaceGo _ _ _ _ _ h' with h'' | h''
      · exact Or.inl h''
      · exact Or.inr ⟨r, by simp, h''⟩
    · exact Or.inr ⟨p, by simp [hp], hcp⟩

theorem foldl_replace_noop :
    ∀ (rs : List (Str × Str)) (t : Str),
      (∀ p ∈ rs, containsSub t p.1 = false) →
      rs.foldl (fun acc p => pyReplace acc p.1 p.2) t = t := by
  intro rs
  induction rs with
  | nil => intro t _; rfl
  | cons r rest ih =>
    intro t h
    simp only [List.foldl_cons]
    rw [show pyReplace t r.1 r.2 = t from pyReplaceGo_noop _ _ _ _ (h r (by simp))]
    exact ih t (fun p hp => h p (by simp [hp]))

theorem mem_joinSpace :
    ∀ (ws : List Str) (c : Char), c ∈ joinSpace ws → c = ' ' ∨ ∃ w ∈ ws, c ∈ w := by
  intro ws
  induction ws with
  | nil => intro c h; cases h
  | cons w rest ih =>
    intro c h
    cases rest with
    | nil => exact Or.inr ⟨w, by simp, h⟩
    | cons w2 rest2 =>
      have hj : joinSpace (w :: w2 :: rest2) = w ++ ' ' :: joinSpace (w2 :: rest2) := rfl
      rw [hj] at h
      rcases List.mem_append.1 h with h | h
      · exact Or.inr ⟨w, by simp, h⟩
      · rcases List.mem_cons.1 h with h | h
        · exact Or.inl h
        · rcases ih c h with h | ⟨w', hw', hc'⟩
          · exact Or.inl h
          · exact Or.inr ⟨w', by simp [hw'], hc'⟩

theorem pySplitGo_nil (fuel : Nat) : pySplitGo fuel [] = [] := by
  cases fuel <;> rfl

theorem pySplitGo_words :
    ∀ (fuel : Nat) (s w : Str), w ∈ pySplitGo fuel s →
      w ≠ [] ∧ ∀ c ∈ w, notSpaceChar c = true := by
  intro fuel
  induction fuel with
  | zero => intro s w h; cases h
  | succ n ih =>
    intro s w h
    match s with
    | [] => cases h
    | c :: rest =>
      rw [pySplitGo] at h
      split at h
      · exact ih rest w h
      · rcases List.mem_cons.1 h with h | h
        · subst h
          constructor
          · simp only [List.takeWhile]
            rw [show notSpaceChar c = true by simp [notSpaceChar]; simp_all]
            simp
          · intro x hx
            exact List.mem_takeWhile_imp hx
        · exact ih _ w h

theorem mem_pySplitGo_mem :
    ∀ (fuel : Nat) (s w : Str), w ∈ pySplitGo fuel s → ∀ c ∈ w, c ∈ s := by
  intro fuel
  induction fuel with
  | zero => intro s w h; cases h
  | succ n ih =>
    intro s w h c hc
    match s with
    | [] => cases h
    | x :: rest =>
      rw [pySplitGo] at h
      split at h
      · exact List.mem_cons_of_mem x (ih rest w h c hc)
      · rcases List.mem_cons.1 h with h | h
        · exact (List.takeWhile_sublist _).subset (h ▸ hc)
        · exact (List.dropWhile_sublist _).subset (ih _ w h c hc)

theorem mem_collapseWs {s : Str} {c : Char} (h : c ∈ collapseWs s) : c = ' ' ∨ c ∈ s := by
  unfold collapseWs at h
  rcases mem_joinSpace _ c h with h | ⟨w, hw, hc⟩
  · exact Or.inl h
  · exact Or.inr (mem_pySplitGo_mem _ _ w hw c hc)

theorem takeWhile_append_all :
    ∀ (w : Str) (x : Char) (t : Str), (∀ c ∈ w, notSpaceChar c = true) →
      notSpaceChar x = false → (w ++ x :: t).takeWhile notSpaceChar = w := by
  intro w
  induction w with
  | nil => intro x t _ hx; simp [List.takeWhile, hx]
  | cons a as ih =>
    intro x t hw hx
    simp only [List.cons_append, List.takeWhile]
    rw [hw a (by simp)]
    rw [show as.append (x :: t) = as ++ x :: t from rfl,
      ih x t (fun c hc => hw c (by simp [hc])) hx]

theorem dropWhile_append_all :
    ∀ (w : Str) (x : Char) (t : Str), (∀ c ∈ w, notSpaceChar c = true) →
      notSpaceChar x = false → (w ++ x :: t).dropWhile notSpaceChar = x :: t := by
  intro w
  induction w with
  | nil => intro x t _ hx; simp [List.dropWhile, hx]
  | cons a as ih =>
    intro x t hw hx
    simp only [List.cons_append, List.dropWhile]
    rw [hw a (by simp)]
    exact ih x t (fun c hc => hw c (by simp [hc])) hx

theorem takeWhile_all :
    ∀ (w : Str), (∀ c ∈ w, notSpaceChar c = true) → w.takeWhile notSpaceChar = w := by
  intro w
  induction w with
  | nil => intro _; rfl
  | cons a as ih =>
    intro h
    simp only [List.takeWhile]
    rw [h a (by simp)]
    simp only [ih (fun c hc => h c (by simp [hc]))]

theorem dropWhile_all :
    ∀ (w : Str), (∀ c ∈ w, notSpaceChar c = true) → w.dropWhile notSpaceChar = [] := by
  intro w
  induction w with
  | nil => intro _; rfl
  | cons a as ih =>
    intro h
    simp only [List.dropWhile]
    rw [h a (by simp)]
    exact ih (fun c hc => h c (by simp [hc]))

theorem pySplitGo_joinSpace :
    ∀ (ws : List Str) (fuel : Nat), (joinSpace ws).length < fuel →
      (∀ w ∈ ws, w ≠ [] ∧ ∀ c ∈ w, notSpaceChar c = true) →
      pySplitGo fuel (joinSpace ws) = ws := by
  intro ws
  induction ws with
  | nil =>
    intro fuel _ _
    exact pySplitGo_nil fuel
  | cons w rest ih =>
    intro fuel hf hws
    obtain ⟨hne, hall⟩ := hws w (by simp)
    cases rest with
    | nil =>
      match w, hne with
      | c :: cs, _ =>
        have hjoin : joinSpace [c :: cs] = c :: cs := rfl
        rw [hjoin] at hf ⊢
        match fuel, hf with
        | f + 1, _ =>
          rw [pySplitGo]
          rw [if_neg (fun hsp => by
            have := hall c (by simp)
            simp [notSpaceChar, hsp] at this)]
          rw [takeWhile_all _ hall, dropWhile_all _ hall, pySplitGo_nil]
    | cons w2 rest2 =>
      match w, hne with
      | c :: cs, _ =>
        have hjoin : joinSpace ((c :: cs) :: w2 :: rest2) =
            (c :: cs) ++ ' ' :: joinSpace (w2 :: rest2) := rfl
        rw [hjoin] at hf ⊢
        match fuel, hf with
        | f + 1, hf =>
          have hlen : cs.length + 2 + (joinSpace (w2 :: rest2)).length ≤ f := by
            simp only [List.cons_append, List.length_cons, List.length_append] at hf
            omega
          rw [show (c :: cs) ++ ' ' :: joinSpace (w2 :: rest2) =
            c :: (cs ++ ' ' :: joinSpace (w2 :: rest2)) from rfl]
          rw [pySplitGo]
          rw [if_neg (fun hsp => by
            have := hall c (by simp)
            simp [notSpaceChar, hsp] at this)]
          rw [show c :: (cs ++ ' ' :: joinSpace (w2 :: rest2)) =
            (c :: cs) ++ ' ' :: joinSpace (w2 :: rest2) from rfl]
          rw [takeWhile_append_all _ _ _ hall (by decide),
            dropWhile_append_all _ _ _ hall (by decide)]
          obtain ⟨f', rfl⟩ : ∃ f'', f = f'' + 1 := ⟨f - 1, by omega⟩
          rw [pySplitGo, if_pos (by decide)]
          rw [ih f' (by omega) (fun x hx => hws x (by simp [hx]))]

theorem collapseWs_idem (s : Str) : collapseWs (collapseWs s) = collapseWs s := by
  unfold collapseWs
  congr 1
  unfold pySplit
  exact pySplitGo_joinSpace _ _ (by omega)
    (fun w hw => pySplitGo_words _ _ w hw)

theorem lcFix_preprocess (s : Str) : ∀ c ∈ preprocess_text s, lowerChar c = c := by
  intro c hc
  have hval : ∀ p ∈ replacements, ∀ c ∈ p.2, lowerChar c = c := by decide
  have hpre : preprocess_text s =
      collapseWs (replacements.foldl (fun acc p => pyReplace acc p.1 p.2) (pyLower s)) := rfl
  rw [hpre] at hc
  rcases mem_collapseWs hc with h | h
  · subst h; decide
  · rcases mem_foldl_replace _ _ _ h with h' | ⟨p, hp, hcp⟩
    · exact mem_pyLower_fix h'
    · exact hval p hp c hcp

theorem findTimeIn_le :
    ∀ (ps : List (RE × Nat)) (text : Str) (h m : Nat),
      findTimeIn ps text = some (h, m) → h ≤ 23 ∧ m ≤ 59 := by
  intro ps
  induction ps with
  | nil => intro text h m hx; cases hx
  | cons p rest ih =>
    obtain ⟨re, ng⟩ := p
    intro text h m hx
    simp only [findTimeIn] at hx
    split at hx
    · split at hx
      · rename_i hcond
        simp only [Option.some.injEq, Prod.mk.injEq] at hx
        obtain ⟨rfl, rfl⟩ := hx
        exact hcond
      · exact ih _ _ _ hx
    · exact ih _ _ _ hx

theorem get_default_duration_pos (t : Str) : 0 < get_default_duration t := by
  unfold get_default_duration
  dsimp only
  split_ifs <;> norm_num

/-! ## Claim theorems -/

/-- C2 counterexample: the requested name `work stuff` is a substring of
the calendar name `work stuffs`, is 10 ≥ 3 characters long and is
10/11 ≥ 70% of that name's length, and neither exact stage matches, so
the claimed third (substring) stage would return the calendar — as the
spec-modelled `find_matching_calendar_spec` does — but the code's
`find_matching_calendar` has no substring stage and returns no match. -/
theorem C2_counterexample :
    find_matching_calendar (ofStr "work stuff") [calWorkStuffs] = none ∧
    containsSub (pyStrip (pyLower calWorkStuffs.name))
      (pyStrip (pyLower (ofStr "work stuff"))) = true ∧
    3 ≤ (pyStrip (pyLower (ofStr "work stuff"))).length ∧
    7 * (pyStrip (pyLower calWorkStuffs.name)).length ≤
      10 * (pyStrip (pyLower (ofStr "work stuff"))).length ∧
    find_matching_calendar_spec (ofStr "work stuff") [calWorkStuffs] =
      some calWorkStuffs :=
  ⟨by rfl, by decide, by decide, by decide, by rfl⟩

/-- C2 amended: calendar matching has exactly two stages — a calendar
matches when its lowercased trimmed name equals the lowercased trimmed
request, or else when the lowercased whitespace-collapsed names are
equal — and otherwise there is no match; no substring stage exists. -/
theorem C2_theorem (requested : Str) (cals : List Calendar) :
    find_matching_calendar requested cals = none ↔
      ∀ c ∈ cals,
        pyStrip (pyLower c.name) ≠ pyStrip (pyLower requested) ∧
        collapseWs (pyLower c.name) ≠ collapseWs (pyStrip (pyLower requested)) := by
  unfold find_matching_calendar
  cases h1 : cals.find? (fun c =>
      pyStrip (pyLower c.name) == pyStrip (pyLower requested)) with
  | some c1 =>
    have hc1 := List.mem_of_find?_eq_some h1
    have hp1 := List.find?_some h1
    simp only [beq_iff_eq] at hp1
    simp only [h1]
    exact iff_of_false (by simp) (fun hall => (hall c1 hc1).1 hp1)
  | none =>
    simp only [h1]
    cases h2 : cals.find? (fun c =>
        collapseWs (pyLower c.name) == collapseWs (pyStrip (pyLower requested))) with
    | some c2 =>
      have hc2 := List.mem_of_find?_eq_some h2
      have hp2 := List.find?_some h2
      simp only [beq_iff_eq] at hp2
      exact iff_of_false (by simp [h2]) (fun hall => (hall c2 hc2).2 hp2)
    | none =>
      refine iff_of_true rfl (fun c hc => ?_)
      have k1 := List.find?_eq_none.1 h1 c hc
      have k2 := List.find?_eq_none.1 h2 c hc
      simp only [beq_iff_eq] at k1 k2
      exact ⟨k1, k2⟩

/-- C3 counterexample: in the exact scenario of the claim (current
instant Monday 2024-06-10, timezone UTC, no spaCy entities on the
lowercased text), `parse_event` applied to
`"Meeting with John tomorrow at 2pm"` returns the title `John` — not
`Meeting With John` — and confidence 60, not ≥ 80; the start and end
times do match the claim. -/
theorem C3_counterexample :
    parse_event oracleJun10 (ofStr "Meeting with John tomorrow at 2pm") =
      .ok (some evC3) ∧
    evC3.title ≠ ofStr "Meeting With John" ∧
    evC3.confidence < 80 ∧
    evC3.start_time = ⟨19885, 14, 0, 0⟩ ∧
    evC3.end_time = ⟨19885, 15, 0, 0⟩ :=
  ⟨by rfl, by decide, by decide, by rfl, by rfl⟩

/-- C3 amended: the scenario yields an event with title `John` (the
first matching title template captures only the text between `with` and
the first date marker), start 2024-06-11T14:00:00Z, end
2024-06-11T15:00:00Z (default 60-minute duration) and confidence 60
(20 for title length + 30 for datetime + 5 + 5 for text richness; the
one-word title earns neither the keyword nor the two-word bonus). -/
theorem C3_theorem :
    parse_event oracleJun10 (ofStr "Meeting with John tomorrow at 2pm") =
      .ok (some { title := ofStr "John", start_time := ⟨19885, 14, 0, 0⟩,
                  end_time := ⟨19885, 15, 0, 0⟩, location := [], confidence := 60,
                  original_text := ofStr "meeting with john tomorroworrow at 2pm" }) := by
  rfl

/-- C4 counterexample: `meeting friday 14:00` contains a generic weekday
and a bare 24-hour clock time and no script-specific (Hebrew) date
token, yet the Hebrew extractor's script-agnostic `HH:MM` pattern fires
first and resolves to *today* at 14:00, preempting the generic path,
which would have combined the resolved Friday (2024-06-14) with that
clock time. -/
theorem C4_counterexample :
    extract_datetime_enhanced oracleJun10 (ofStr "meeting friday 14:00") =
      .ok (some { start := ⟨19884, 14, 0, 0⟩, stop := none }) ∧
    extract_datetime oracleJun10 (ofStr "meeting friday 14:00") =
      .ok (some { start := ⟨19888, 14, 0, 0⟩, stop := none }) ∧
    (⟨19884, 14, 0, 0⟩ : DateTime) ≠ ⟨19888, 14, 0, 0⟩ :=
  ⟨by rfl, by rfl, by decide⟩

/-- C4 amended: the script-specific extractor preempts the generic
extractors not only when its date vocabulary matches but whenever any of
its time patterns (the last being a bare `HH:MM`) matches with a valid
clock value; when no Hebrew date token is present the result is the
current day at that clock time, and the generic date vocabulary is never
consulted. -/
theorem C4_theorem (o : Oracle) (text : Str) (h m : Nat)
    (hdate : hebrewFindDate o hebrew_days text = none)
    (htime : findTimeIn hebrew_time_patterns text = some (h, m)) :
    extract_datetime_enhanced o text =
      .ok (some { start := { o.now with hour := h, minute := m, second := 0 },
                  stop := none }) := by
  obtain ⟨hh, hm⟩ := findTimeIn_le _ _ _ _ htime
  have hrep : o.now.replaceHM h m =
      .ok { o.now with hour := h, minute := m, second := 0 } := by
    unfold DateTime.replaceHM
    rw [if_pos ⟨hh, hm⟩]
  simp only [extract_datetime_enhanced, extract_hebrew_datetime, hdate, htime, hrep]
  rfl

/-- C4 witness: the amended statement at the counterexample's input. -/
theorem C4_witness :
    hebrewFindDate oracleJun10 hebrew_days (ofStr "meeting friday 14:00") = none ∧
    findTimeIn hebrew_time_patterns (ofStr "meeting friday 14:00") = some (14, 0) ∧
    extract_datetime_enhanced oracleJun10 (ofStr "meeting friday 14:00") =
      .ok (some { start := ⟨19884, 14, 0, 0⟩, stop := none }) :=
  ⟨by rfl, by rfl, C4_theorem oracleJun10 (ofStr "meeting friday 14:00") 14 0 (by rfl) (by rfl)⟩

/-- C5 counterexample: normalization is not idempotent — the
abbreviation pass rewrites `tom` to `tomorrow`, and normalizing the
already-normalized `tomorrow` mangles its embedded `tom` again into
`tomorroworrow`. -/
theorem C5_counterexample :
    preprocess_text (ofStr "tom") = ofStr "tomorrow" ∧
    preprocess_text (preprocess_text (ofStr "tom")) = ofStr "tomorroworrow" ∧
    preprocess_text (preprocess_text (ofStr "tom")) ≠ preprocess_text (ofStr "tom") :=
  ⟨by rfl, by rfl, by decide⟩

/-- C5 amended: normalization is idempotent exactly on messages whose
normalized form contains none of the abbreviation keys; on such inputs a
second pass lowercases, replaces and re-collapses without effect, while
a normalized text that still contains a key (such as `tom` inside
`tomorrow`) is rewritten again. -/
theorem C5_theorem (s : Str)
    (h : ∀ p ∈ replacements, containsSub (preprocess_text s) p.1 = false) :
    preprocess_text (preprocess_text s) = preprocess_text s := by
  have hpre : ∀ t : Str, preprocess_text t =
      collapseWs (replacements.foldl (fun acc p => pyReplace acc p.1 p.2) (pyLower t)) :=
    fun _ => rfl
  rw [hpre (preprocess_text s)]
  rw [show pyLower (preprocess_text s) = preprocess_text s from
    map_fix (fun c hc => lcFix_preprocess s c hc)]
  rw [foldl_replace_noop _ _ h]
  rw [hpre s]
  exact collapseWs_idem _

/-- C5 witness: `hello world` normalizes to itself-like form with no
abbreviation key, so the amended idempotence applies. -/
theorem C5_witness :
    (∀ p ∈ replacements, containsSub (preprocess_text (ofStr "hello world")) p.1 = false) ∧
    preprocess_text (preprocess_text (ofStr "hello world")) =
      preprocess_text (ofStr "hello world") :=
  ⟨by decide, C5_theorem (ofStr "hello world") (by decide)⟩

/-- C6 (code bug): for a connected user and the message
`meeting tomorrow at 13pm`, the time extractor converts `13pm` to hour
25 with no validation, `datetime.replace(hour=25, ...)` raises
`ValueError` inside `extract_datetime`, and the `except Exception`
handler of `try_nlp_event_creation` then evaluates the undefined name
`phone_number` (main.py:403), so a `NameError` escapes to the caller
instead of the claimed `None`-or-user-facing-string resolution. -/
theorem C6_theorem :
    parse_event oracleJun10 (ofStr "meeting tomorrow at 13pm") = .error .valueError ∧
    try_nlp_event_creation (parse_event oracleJun10) [] 0 userConn
      (ofStr "meeting tomorrow at 13pm") = .error .nameError :=
  ⟨by rfl, by rfl⟩

/-- C8 counterexample: with the default 30-minute timeout, a
`confirm_event` state last updated at epoch second 0 is expired at epoch
second 2700 (45 minutes later); `process_message`'s gate then skips the
conversation flow — the message falls through to normal command
processing — but the user state comes back unchanged, still carrying the
stale step and payload: the state is *not* cleared, contradicting the
claim that it is "cleared unread". -/
theorem C8_counterexample :
    is_conversation_expired 2700 userConfirm0 30 = true ∧
    conversationGate parseNone [] 2700 userConfirm0 (ofStr "hello") =
      .ok (none, userConfirm0) ∧
    userConfirm0.conversation_step = some .confirm_event ∧
    userConfirm0.conversation_state = some dataC10 :=
  ⟨by decide, by rfl, by rfl, by rfl⟩

/-- C8 amended: an expired state is treated as absent — the conversation
flow is skipped and the incoming message is handled by normal command
processing — but the stale state is left in place rather than cleared
(`handle_conversation_flow`, which would clear it, is guarded out by
`process_message` at main.py:1027). -/
theorem C8_theorem (parse : Str → Except PyErr (Option Event)) (cals : List Calendar)
    (now : Int) (u : UserState) (msg : Str)
    (_hstep : u.conversation_step.isSome = true)
    (hexp : is_conversation_expired now u 30 = true) :
    conversationGate parse cals now u msg = .ok (none, u) := by
  unfold conversationGate
  rw [if_neg (fun hcond => by rw [hexp] at hcond; exact absurd hcond.2 (by simp))]

/-- C8 witness: the amended statement at the counterexample's state,
with the `yes` reply of the spec's scenario 6. -/
theorem C8_witness :
    userConfirm0.conversation_step.isSome = true ∧
    is_conversation_expired 2700 userConfirm0 30 = true ∧
    conversationGate parseNone [] 2700 userConfirm0 (ofStr "yes") =
      .ok (none, userConfirm0) :=
  ⟨by decide, by decide,
    C8_theorem parseNone [] 2700 userConfirm0 (ofStr "yes") (by decide) (by decide)⟩

/-- C9: every message with fewer than three whitespace-separated words
is rejected by the `should_try_nlp` gate before any parsing, and for a
connected user the NLP tail of `process_message` answers with the
unknown-command template without ever invoking the parser, so no event
is produced. -/
theorem C9_theorem (msg : Str) (h : (pySplit msg).length < 3) :
    should_try_nlp msg = false ∧
    ∀ (parse : Str → Except PyErr (Option Event)) (cals : List Calendar)
      (now : Int) (u : UserState), u.connected = true →
      processNlpTail parse cals now u msg = .ok (.unknownCommand, u) := by
  have hg : should_try_nlp msg = false := by
    unfold should_try_nlp
    rw [if_pos h]
  refine ⟨hg, fun parse cals now u hc => ?_⟩
  unfold processNlpTail
  simp [hc, hg]

/-- C9 witness: the one-token input `lunch` is rejected. -/
theorem C9_witness :
    (pySplit (ofStr "lunch")).length < 3 ∧
    should_try_nlp (ofStr "lunch") = false ∧
    processNlpTail parseNone [] 0 userConn (ofStr "lunch") =
      .ok (.unknownCommand, userConn) :=
  ⟨by decide, (C9_theorem (ofStr "lunch") (by decide)).1,
    (C9_theorem (ofStr "lunch") (by decide)).2 parseNone [] 0 userConn rfl⟩

/-- C1 helper: with no explicit extracted end, the derived end time is
start plus a positive number of minutes. -/
theorem parsedEnd_lt (di : DTInfo) (dur : Option Nat) (title : Str)
    (h : di.stop = none) :
    di.start.toSec < (parsedEnd di dur title).toSec := by
  unfold parsedEnd
  rw [h]
  cases dur with
  | none =>
    show di.start.toSec < (di.start.addMinutes (get_default_duration title)).toSec
    rw [DateTime.toSec_addMinutes]
    have := get_default_duration_pos title
    omega
  | some d =>
    show di.start.toSec < (if d ≠ 0 then di.start.addMinutes d
      else di.start.addMinutes (get_default_duration title)).toSec
    split_ifs with hd
    · rw [DateTime.toSec_addMinutes]
      have : 0 < d := Nat.pos_of_ne_zero hd
      omega
    · rw [DateTime.toSec_addMinutes]
      have := get_default_duration_pos title
      omega

/-- C1 amended: `end_time` is strictly after `start_time` whenever the
end was *not* taken from an explicit time range — when the extracted
datetime carries no explicit end, the end is start plus a positive
number of minutes: an explicit non-zero duration, or the category
default (a zero explicit duration is falsy in Python and also falls back
to the positive default). An explicit range can put the end at or before
the start (see the counterexample). -/
theorem C1_theorem (o : Oracle) (t : Str) (ev : Event) (di : DTInfo)
    (hev : parse_event o t = .ok (some ev))
    (hdi : extract_datetime_enhanced o (preprocess_text t) = .ok (some di))
    (hstop : di.stop = none) :
    ev.start_time.toSec < ev.end_time.toSec := by
  unfold parse_event at hev
  rw [hdi] at hev
  dsimp only at hev
  split at hev
  · exact absurd hev (by simp)
  · exact absurd hev (by simp)
  · simp only [Except.ok.injEq, Option.some.injEq] at hev
    subst hev
    exact parsedEnd_lt di _ _ hstop

/-- C1 witness: `meeting tomorrow at 2pm` extracts a start with no
explicit end, and the returned end is one default hour later. -/
theorem C1_witness :
    parse_event oracleJun10 (ofStr "meeting tomorrow at 2pm") = .ok (some evC1w) ∧
    extract_datetime_enhanced oracleJun10 (preprocess_text (ofStr "meeting tomorrow at 2pm")) =
      .ok (some { start := ⟨19885, 14, 0, 0⟩, stop := none }) ∧
    evC1w.start_time.toSec < evC1w.end_time.toSec :=
  ⟨by rfl, by rfl,
    C1_theorem oracleJun10 (ofStr "meeting tomorrow at 2pm") evC1w
      { start := ⟨19885, 14, 0, 0⟩, stop := none } (by rfl) (by rfl) rfl⟩

/-- C1 counterexample: for `meeting tomorrow 3-2pm` the explicit range
`3-2pm` yields start 15:00 and end 14:00 on the same day, so the
returned `end_time` is strictly *before* `start_time`. -/
theorem C1_counterexample :
    parse_event oracleJun10 (ofStr "meeting tomorrow 3-2pm") = .ok (some evC1) ∧
    evC1.end_time.toSec < evC1.start_time.toSec :=
  ⟨by rfl, by decide⟩

/-- C7: with no explicitly named calendar in the message, dispatch
enters calendar selection whenever more than one writable calendar
exists, regardless of the confidence score; with at most one writable
calendar, confidence ≥ 80 creates the event automatically, 50–79 and
30–49 both stash the event and enter the `confirm_event` state (with
the plain and the "I think I understand" prompts respectively), and
below 30 the NLP result is `None`, which the `process_message` tail
turns into the "could not understand" (`nlp_failed`) response. -/
theorem C7_theorem (parse : Str → Except PyErr (Option Event)) (cals : List Calendar)
    (now : Int) (u : UserState) (msg : Str) (ev : Event)
    (hconn : u.connected = true)
    (hparse : parse msg = .ok (some ev))
    (hnocal : extract_calendar_name msg = none) :
    (1 < (cals.filter (fun c =>
        c.access_role = ofStr "owner" ∨ c.access_role = ofStr "writer")).length →
      try_nlp_event_creation parse cals now u msg =
        .ok (some (.chooseCalPrompt ev (cals.filter (fun c =>
              c.access_role = ofStr "owner" ∨ c.access_role = ofStr "writer"))),
          set_conversation_state now u .choose_calendar
            (some { parsed_event := some (make_json_serializable ev),
                    selected_calendar := none,
                    calendars := cals.filter (fun c =>
                      c.access_role = ofStr "owner" ∨
                      c.access_role = ofStr "writer") }))) ∧
    ((cals.filter (fun c =>
        c.access_role = ofStr "owner" ∨ c.access_role = ofStr "writer")).length ≤ 1 →
      (80 ≤ ev.confidence →
        try_nlp_event_creation parse cals now u msg =
          .ok (some (.createdAuto ev (cals.filter (fun c =>
            c.access_role = ofStr "owner" ∨ c.access_role = ofStr "writer"))), u)) ∧
      (50 ≤ ev.confidence → ev.confidence < 80 →
        try_nlp_event_creation parse cals now u msg =
          .ok (some (.confirmPrompt ev),
            set_conversation_state now u .confirm_event
              (some { parsed_event := some (make_json_serializable ev),
                      selected_calendar := none, calendars := [] }))) ∧
      (30 ≤ ev.confidence → ev.confidence < 50 →
        try_nlp_event_creation parse cals now u msg =
          .ok (some (.understandPrompt ev),
            set_conversation_state now u .confirm_event
              (some { parsed_event := some (make_json_serializable ev),
                      selected_calendar := none, calendars := [] }))) ∧
      (ev.confidence < 30 →
        try_nlp_event_creation parse cals now u msg = .ok (none, u) ∧
        (should_try_nlp msg = true →
          processNlpTail parse cals now u msg = .ok (.nlpFailed, u)))) := by
  constructor
  · intro hgt
    unfold try_nlp_event_creation try_nlp_body
    simp only [hconn, hparse, hnocal]
    rw [if_neg (by simp), if_pos hgt]
  · intro hle
    refine ⟨?_, ?_, ?_, ?_⟩
    · intro h80
      unfold try_nlp_event_creation try_nlp_body
      simp only [hconn, hparse, hnocal]
      rw [if_neg (by simp), if_neg (by omega), if_pos h80]
    · intro h50 h80
      unfold try_nlp_event_creation try_nlp_body
      simp only [hconn, hparse, hnocal]
      rw [if_neg (by simp), if_neg (by omega), if_neg (by omega), if_pos h50]
    · intro h30 h50
      unfold try_nlp_event_creation try_nlp_body
      simp only [hconn, hparse, hnocal]
      rw [if_neg (by simp), if_neg (by omega), if_neg (by omega), if_neg (by omega),
        if_pos h30]
    · intro h30
      have htry : try_nlp_event_creation parse cals now u msg = .ok (none, u) := by
        unfold try_nlp_event_creation try_nlp_body
        simp only [hconn, hparse, hnocal]
        rw [if_neg (by simp), if_neg (by omega), if_neg (by omega), if_neg (by omega),
          if_neg (by omega)]
      refine ⟨htry, fun hgate => ?_⟩
      unfold processNlpTail
      simp only [hconn, hgate, htry]
      rfl

/-- C7 witness: a 90-confidence parse with one writable calendar and no
named calendar creates automatically. -/
theorem C7_witness :
    userConn.connected = true ∧
    parseW (ofStr "team sync tomorrow at 2pm") = .ok (some evW) ∧
    extract_calendar_name (ofStr "team sync tomorrow at 2pm") = none ∧
    ([calPersonal].filter (fun c =>
      c.access_role = ofStr "owner" ∨ c.access_role = ofStr "writer")).length ≤ 1 ∧
    80 ≤ evW.confidence ∧
    try_nlp_event_creation parseW [calPersonal] 0 userConn
        (ofStr "team sync tomorrow at 2pm") =
      .ok (some (.createdAuto evW ([calPersonal].filter (fun c =>
        c.access_role = ofStr "owner" ∨ c.access_role = ofStr "writer"))), userConn) :=
  ⟨rfl, rfl, by rfl, by decide, by decide,
    (((C7_theorem parseW [calPersonal] 0 userConn
        (ofStr "team sync tomorrow at 2pm") evW rfl rfl (by rfl)).2
      (by decide)).1) (by decide)⟩

/-- C10: in the `confirm_event` state with a stashed, well-formed
`parsed_event` payload, a reply that is no yes/no/edit variant produces
the re-prompt carrying the stashed event and returns the user state
untouched: the step stays `confirm_event` and the payload is retained
identically. -/
theorem C10_theorem (parse : Str → Except PyErr (Option Event)) (cals : List Calendar)
    (now : Int) (u : UserState) (msg : Str) (data : ConvData) (se : SerEvent)
    (d1 d2 : DateTime)
    (hstep : u.conversation_step = some .confirm_event)
    (hdata : u.conversation_state = some data)
    (hexp : is_conversation_expired now u 30 = false)
    (hyes : yes_variants.contains (pyStrip (pyLower msg)) = false)
    (hno : no_variants.contains (pyStrip (pyLower msg)) = false)
    (hedit : edit_variants.contains (pyStrip (pyLower msg)) = false)
    (hpe : data.parsed_event = some se)
    (hs : se.start_time = .iso d1)
    (he : se.end_time = .iso d2) :
    handle_conversation_flow parse cals now u msg =
      .ok (some (.reprompt { title := se.title, start_time := d1, end_time := d2,
                             location := se.location, confidence := se.confidence,
                             original_text := se.original_text }), u) := by
  unfold handle_conversation_flow
  rw [hexp]
  simp only [Bool.false_eq_true, if_false, hstep, hdata]
  unfold handle_event_confirmation
  simp only [hyes, hno, hedit, Bool.false_eq_true, if_false, pyGetAttr, hpe,
    make_json_deserializable, hs, he, fromisoformat]

/-- C10 witness: the reply `maybe` (spec scenario 5) re-prompts and
leaves the stashed state untouched. -/
theorem C10_witness :
    userConfirm0.conversation_step = some .confirm_event ∧
    userConfirm0.conversation_state = some dataC10 ∧
    is_conversation_expired 60 userConfirm0 30 = false ∧
    yes_variants.contains (pyStrip (pyLower (ofStr "maybe"))) = false ∧
    no_variants.contains (pyStrip (pyLower (ofStr "maybe"))) = false ∧
    edit_variants.contains (pyStrip (pyLower (ofStr "maybe"))) = false ∧
    handle_conversation_flow parseNone [] 60 userConfirm0 (ofStr "maybe") =
      .ok (some (.reprompt { title := serC10.title, start_time := ⟨19885, 14, 0, 0⟩,
                             end_time := ⟨19885, 15, 0, 0⟩, location := serC10.location,
                             confidence := serC10.confidence,
                             original_text := serC10.original_text }), userConfirm0) :=
  ⟨rfl, rfl, by decide, by decide, by decide, by decide,
    C10_theorem parseNone [] 60 userConfirm0 (ofStr "maybe") dataC10 serC10
      ⟨19885, 14, 0, 0⟩ ⟨19885, 15, 0, 0⟩ rfl rfl (by decide) (by decide) (by decide)
      (by decide) rfl rfl rfl⟩

end WCB
